import Mathlib

/-!
Verification of the quant-harbor robustness-evaluation core.

This file shallowly embeds the pipeline components of
`src/quant_harbor/` (time splitting, walk-forward window generation,
parameter-basin construction, hard gates, candidate selection, the
scorecard and the deflated-Sharpe statistic) and proves or refutes the
spec's claims about them.

Modelling conventions:
- pandas tz-aware timestamps are modelled by a Gregorian calendar record
  `Ts` (year, month 1..12, day, second-of-day).  pandas compares
  timestamps chronologically; on valid calendar records chronological
  order is the lexicographic order on (year, month, day, second), which
  we linearize with the injective-on-order map `Ts.key` (months are
  padded to 31 days; only the order matters, never durations, except in
  the gate code which works on epoch-second differences and is modelled
  separately with rationals).
- `pd.DateOffset(months=k)` arithmetic (shift the month, clamp the day
  to the target month length, keep the time of day) is `addMonths`;
  `pd.Timedelta(seconds=1)` subtraction is `sub1s`.
- Python floats are modelled as exact rationals `ℚ` wherever the code's
  logic is order/branch logic, and as `ℝ` in the one analytic function
  (`deflated_sharpe_ratio`) whose claim is about real monotonicity.
-/

namespace QuantHarbor

/-- Gregorian leap-year test. -/
def isLeap (y : Int) : Bool :=
  (y % 4 == 0 && y % 100 != 0) || y % 400 == 0

/-- Number of days of month `m` (1..12) of year `y`. -/
def daysInMonth (y : Int) (m : Nat) : Nat :=
  if m = 2 then (if isLeap y then 29 else 28)
  else if m = 4 ∨ m = 6 ∨ m = 9 ∨ m = 11 then 30
  else 31

/-- A timezone-normalized timestamp: year, month (1..12), day, second of day. -/
structure Ts where
  y : Int
  m : Nat
  d : Nat
  sod : Nat
deriving DecidableEq

/-- A well-formed calendar timestamp. -/
def Valid (t : Ts) : Prop :=
  1 ≤ t.m ∧ t.m ≤ 12 ∧ 1 ≤ t.d ∧ t.d ≤ daysInMonth t.y t.m ∧ t.sod < 86400

instance (t : Ts) : Decidable (Valid t) := by unfold Valid; infer_instance

/-- Month index on the infinite month line (`12*y + (m-1)`). -/
def matIdx (t : Ts) : Int := 12 * t.y + ((t.m : Int) - 1)

/-- Linearization of the chronological order: pad every month to 31 days.
On valid timestamps `key` is strictly monotone in chronological order. -/
def key (t : Ts) : Int :=
  (matIdx t * 31 + ((t.d : Int) - 1)) * 86400 + (t.sod : Int)

instance : LE Ts := ⟨fun a b => key a ≤ key b⟩
instance : LT Ts := ⟨fun a b => key a < key b⟩

instance (a b : Ts) : Decidable (a ≤ b) :=
  inferInstanceAs (Decidable (key a ≤ key b))
instance (a b : Ts) : Decidable (a < b) :=
  inferInstanceAs (Decidable (key a < key b))

/-- `t + pd.DateOffset(months=k)`: shift the month index, clamp the day.
`/` and `%` on `Int` are euclidean division, matching Python's floor
semantics for the positive modulus 12. -/
def addMonths (k : Int) (t : Ts) : Ts :=
  ⟨(matIdx t + k) / 12,
   ((matIdx t + k) % 12).toNat + 1,
   min t.d (daysInMonth ((matIdx t + k) / 12) (((matIdx t + k) % 12).toNat + 1)),
   t.sod⟩

/-- `t - pd.Timedelta(seconds=1)`. -/
def sub1s (t : Ts) : Ts :=
  if 0 < t.sod then ⟨t.y, t.m, t.d, t.sod - 1⟩
  else if 1 < t.d then ⟨t.y, t.m, t.d - 1, 86399⟩
  else if 1 < t.m then ⟨t.y, t.m - 1, daysInMonth t.y (t.m - 1), 86399⟩
  else ⟨t.y - 1, 12, 31, 86399⟩

/-! ### Series: ordered lists of timestamps

A DataFrame index is modelled as the list of its row timestamps; all the
split/window code only reads the index, so a row is identified with its
timestamp. -/

/-- Strictly increasing timestamps (the spec's TimeSeries invariant). -/
def sortedKeys (l : List Ts) : Prop :=
  List.Pairwise (fun a b => key a < key b) l

instance (l : List Ts) : Decidable (sortedKeys l) := by
  unfold sortedKeys; infer_instance

/-- `index.max()` over a nonempty list, as a fold. -/
def tsMaxFold (h : Ts) (l : List Ts) : Ts :=
  l.foldl (fun a b => if key a < key b then b else a) h

/-- `index.min()` over a nonempty list, as a fold. -/
def tsMinFold (h : Ts) (l : List Ts) : Ts :=
  l.foldl (fun a b => if key b < key a then b else a) h

/-- `index.max()`; `none` on an empty index (pandas NaT). -/
def tsMax : List Ts → Option Ts
  | [] => none
  | h :: t => some (tsMaxFold h t)

/-- `index.min()`; `none` on an empty index (pandas NaT). -/
def tsMin : List Ts → Option Ts
  | [] => none
  | h :: t => some (tsMinFold h t)

/-! ### TimeSplitter (`split.py`, `split_train_val_test_last12m`)

`none` models the `ValueError` raised on an empty index or an empty
pre-test segment.  The 80/20 time-proportional point inside train+val is
taken in linearized key space with exact arithmetic (`* 4 / 5`); the
claims do not depend on the precise cut position, only on the two filter
predicates being exact complements, which the source guarantees by using
the same `split_point` in both. -/

structure SplitResult where
  train : List Ts
  val : List Ts
  test : List Ts
  cut_test_start_utc : Ts
deriving DecidableEq

def split_train_val_test_last12m (series : List Ts) : Option SplitResult :=
  match tsMax series with
  | none => none
  | some e =>
    let cut := addMonths (-12) e
    let test := series.filter (fun r => decide (key cut ≤ key r))
    match series.filter (fun r => decide (key r < key cut)) with
    | [] => none
    | p :: ps =>
      let pre := p :: ps
      let sp := key (tsMinFold p ps) + (key (tsMaxFold p ps) - key (tsMinFold p ps)) * 4 / 5
      some ⟨pre.filter (fun r => decide (key r ≤ sp)),
            pre.filter (fun r => decide (sp < key r)),
            test, cut⟩

/-! ### WindowGenerator (`walk_forward.py`, `make_quarterly_wfa_windows`)

The source runs `while True` with no bound, so the loop is embedded with
an explicit fuel argument (`none` = the loop has not finished within
`fuel` iterations), and the function itself is the relation "some finite
fuel produces this result".  This keeps the embedding honest about the
loop's (non-)termination, which claim C10 is about. -/

structure WfaWindow where
  train_start : Ts
  train_end : Ts
  oos_start : Ts
  oos_end : Ts
deriving DecidableEq

/-- The body of the `while True` loop of `make_quarterly_wfa_windows`. -/
def wfaLoop (endT : Ts) (trainM oosM : Int) : Nat → Ts → Option (List WfaWindow)
  | 0, _ => none
  | fuel + 1, oosStart =>
    if key endT < key (sub1s (addMonths oosM oosStart)) then some []
    else
      match wfaLoop endT trainM oosM fuel (addMonths oosM oosStart) with
      | none => none
      | some ws =>
        some (⟨addMonths (-trainM) oosStart, sub1s oosStart, oosStart,
               sub1s (addMonths oosM oosStart)⟩ :: ws)

/-- `make_quarterly_wfa_windows(index, train_months, oos_months) == l`,
i.e. the unbounded source loop terminates with result `l`. -/
def make_quarterly_wfa_windows (index : List Ts) (trainM oosM : Int)
    (l : List WfaWindow) : Prop :=
  ∃ s e fuel, tsMin index = some s ∧ tsMax index = some e ∧
    wfaLoop e trainM oosM fuel (addMonths trainM s) = some l

/-- The source loop terminates on this input. -/
def wfaTerminates (index : List Ts) (trainM oosM : Int) : Prop :=
  ∃ l, make_quarterly_wfa_windows index trainM oosM l

/-! ### ParameterSpaceBuilder (`basin.py`, `make_basin_params`)

Parameter values are the scalar types that appear in parameter dicts;
Python floats are modelled as exact rationals (no claim depends on float
rounding: the base value itself is copied, never recomputed).  A
parameter set is an association list in the dict's insertion order.
`PVal.s` strings are assumed non-numeric, so `float()` on them raises
(the source catches this inside the sanity filters). -/

inductive PVal where
  | i (n : Int)
  | f (q : ℚ)
  | b (v : Bool)
  | s (v : String)
deriving DecidableEq

structure BasinConfig where
  pct_steps : List ℚ
  int_steps : List Int
  discrete_values : List (String × List PVal)
deriving DecidableEq

/-- The dataclass defaults of `BasinConfig`. -/
def defaultBasinConfig : BasinConfig :=
  ⟨[mkRat 5 100, mkRat 10 100, mkRat 20 100], [1, 2, 4], []⟩

/-- `_pct_perturb`. -/
def pctPerturb (base : ℚ) (pct : ℚ) : List PVal :=
  [.f (base * (1 - pct)), .f (base * (1 + pct))]

/-- Per-parameter candidate value set (the `key_vals[k]` loop body).
The Python `set` is modelled by a list starting at the base value,
de-duplicated; set/string-sort ordering is not modelled (no claim is
about the order of the returned grid). -/
def keyVals (cfg : BasinConfig) (k : String) (v0 : PVal) : List PVal :=
  match cfg.discrete_values.lookup k with
  | some ds => (v0 :: ds).dedup
  | none =>
    match v0 with
    | .b _ => [v0]
    | .i n =>
      (v0 :: cfg.int_steps.flatMap
        (fun d => [.i (max 1 (n - d)), .i (max 1 (n + d))])).dedup
    | .f q => (v0 :: cfg.pct_steps.flatMap (fun p => pctPerturb q p)).dedup
    | .s _ => [v0]

/-- `itertools.product` over per-key value lists, first key slowest. -/
def listProduct : List (String × List PVal) → List (List (String × PVal))
  | [] => [[]]
  | (k, vs) :: rest =>
    vs.flatMap (fun v => (listProduct rest).map (fun tail => (k, v) :: tail))

/-- Python `float(x)`: `none` when it raises (non-numeric string). -/
def toFloatQ : PVal → Option ℚ
  | .i n => some (n : ℚ)
  | .f q => some q
  | .b v => some (if v then 1 else 0)
  | .s _ => none

/-- The sanity clamps: keep a combo unless `entry_rsi` is outside
(0, 100) exclusive or `stop_pct`/`take_pct` is ≤ 0; conversion failures
are swallowed (`except: pass` keeps the combo). -/
def sanityOk (p : List (String × PVal)) : Bool :=
  (match p.lookup "entry_rsi" with
   | some v =>
     match toFloatQ v with
     | some er => decide (0 < er) && decide (er < 100)
     | none => true
   | none => true) &&
  (match p.lookup "stop_pct" with
   | some v =>
     match toFloatQ v with
     | some x => decide (0 < x)
     | none => true
   | none => true) &&
  (match p.lookup "take_pct" with
   | some v =>
     match toFloatQ v with
     | some x => decide (0 < x)
     | none => true
   | none => true)

/-- `make_basin_params`: cartesian product of the per-key value sets,
sanity-filtered, de-duplicated by value equality. -/
def make_basin_params (base : List (String × PVal)) (cfg : BasinConfig) :
    List (List (String × PVal)) :=
  ((listProduct (base.map (fun kv => (kv.1, keyVals cfg kv.1 kv.2)))).filter
    sanityOk).dedup

/-! ### GateEngine (`gates.py`, `apply_gates`)

Summary values are either numbers (exact rationals; for the timestamp
fields the rational is the epoch-second value, so differences are
elapsed seconds) or non-numeric strings on which `float()` / `int()` /
`pd.to_datetime` raise.  A summary field is `none` when the key is
absent (`dict.get`).  Reason strings carry formatted config values in
the source; they are modelled as atomic tags (the tag identity is what
the claims are about).  `apply_gates` returns `none` when an uncaught
conversion error escapes (the source has no try/except around the
maxdd/hold/overtrading/net conversions). -/

inductive SVal where
  | num (q : ℚ)
  | txt (s : String)
deriving DecidableEq

/-- Python `float(x)`: `none` = raises (non-numeric string). -/
def svalFloat : SVal → Option ℚ
  | .num q => some q
  | .txt _ => none

/-- Python `int(x)`: truncation toward zero; `none` = raises. -/
def svalInt : SVal → Option Int
  | .num q => some (Int.tdiv q.num (q.den : Int))
  | .txt _ => none

/-- `pd.to_datetime(x, utc=True)` to epoch seconds; `none` = raises. -/
def svalTime : SVal → Option ℚ
  | .num q => some q
  | .txt _ => none

structure Summary where
  max_drawdown_intrabar_pct : Option SVal
  total_trades : Option SVal
  net_pnl : Option SVal
  data_dt_min_utc : Option SVal
  data_dt_max_utc : Option SVal
  trades_annualized : Option SVal
  avg_hold_bars : Option SVal
deriving DecidableEq

structure GateConfig where
  maxdd_intrabar_pct : ℚ
  min_trades_annualized : ℚ
  min_avg_hold_bars : Option ℚ
  max_trades_annualized : Option ℚ
  require_net_positive : Bool
deriving DecidableEq

/-- The distinct failure tags appended by `apply_gates`. -/
inductive Reason where
  | missing_maxdd_intrabar
  | maxdd_intrabar_exceeds
  | missing_trades
  | trades_annualized_below
  | avg_hold_bars_below
  | trades_annualized_above
  | net_pnl_nonpositive
deriving DecidableEq

/-- Max-drawdown check: missing ⇒ its own tag; present ⇒ compare. -/
def maxddSeg (s : Summary) (cfg : GateConfig) : Option (List Reason) :=
  match s.max_drawdown_intrabar_pct with
  | none => some [.missing_maxdd_intrabar]
  | some v =>
    match svalFloat v with
    | none => none
    | some x =>
      if cfg.maxdd_intrabar_pct < x then some [.maxdd_intrabar_exceeds] else some []

/-- Trade-count check (annualized); both conversion sites sit inside
try/except in the source, so this segment never raises. -/
def tradesSeg (s : Summary) (cfg : GateConfig) : List Reason :=
  match s.total_trades with
  | none => [.missing_trades]
  | some trades =>
    let annPre : Option ℚ :=
      match s.trades_annualized with
      | some v => svalFloat v
      | none => none
    let ann : Option ℚ :=
      match annPre with
      | some a => some a
      | none =>
        match svalInt trades with
        | none => none
        | some t =>
          match s.data_dt_min_utc, s.data_dt_max_utc with
          | some dmin, some dmax =>
            match svalTime dmin, svalTime dmax with
            | some t0, some t1 =>
              some (mkRat t 1 * (mkRat 1461 4 / max ((t1 - t0) / 86400) 1))
            | _, _ => none
          | _, _ => some (mkRat t 1)
    match ann with
    | none => [.trades_annualized_below]
    | some a => if a < cfg.min_trades_annualized then [.trades_annualized_below] else []

/-- Optional minimum average holding time. -/
def holdSeg (s : Summary) (cfg : GateConfig) : Option (List Reason) :=
  match cfg.min_avg_hold_bars with
  | none => some []
  | some m =>
    match s.avg_hold_bars with
    | none => some [.avg_hold_bars_below]
    | some v =>
      match svalFloat v with
      | none => none
      | some x => if x < m then some [.avg_hold_bars_below] else some []

/-- Optional overtrading ceiling. -/
def maxTrSeg (s : Summary) (cfg : GateConfig) : Option (List Reason) :=
  match cfg.max_trades_annualized with
  | none => some []
  | some m =>
    match s.trades_annualized with
    | none => some [.trades_annualized_above]
    | some v =>
      match svalFloat v with
      | none => none
      | some x => if m < x then some [.trades_annualized_above] else some []

/-- Net-pnl positivity check. -/
def netSeg (s : Summary) (cfg : GateConfig) : Option (List Reason) :=
  if cfg.require_net_positive then
    match s.net_pnl with
    | none => some [.net_pnl_nonpositive]
    | some v =>
      match svalFloat v with
      | none => none
      | some x => if x ≤ 0 then some [.net_pnl_nonpositive] else some []
  else some []

structure GateResult where
  gate_ok : Bool
  gate_reasons : List Reason
  gate_cfg : GateConfig
deriving DecidableEq

/-- `apply_gates`: all checks run unconditionally, appending their
failure tags in program order; `ok` is cleared on any failure, which is
exactly "the reason list is nonempty". -/
def apply_gates (s : Summary) (cfg : GateConfig) : Option GateResult :=
  match maxddSeg s cfg, holdSeg s cfg, maxTrSeg s cfg, netSeg s cfg with
  | some r1, some r3, some r4, some r5 =>
    let rs := r1 ++ tradesSeg s cfg ++ r3 ++ r4 ++ r5
    some ⟨rs.isEmpty, rs, cfg⟩
  | _, _, _, _ => none

/-! ### CandidateSelector (`cli_rsi2_freeze_wfa.py`, frozen-params selection)

One aggregate row per candidate, as built by the CLI before selection.
`pos_window_rate` is optional (`fillna(-1.0)` models a window set whose
rate could be missing); the three OOS return aggregates are the sort
keys.  pandas' multi-key `sort_values` with `ascending=[False]*3` is a
stable lexicographic descending sort; `RankLe a b` says `a` ranks at
least as high as `b`. -/

structure CandRow where
  cand : Nat
  pos_window_rate : Option ℚ
  oos_net_return_median : ℚ
  oos_net_return_worst : ℚ
  oos_net_return_mean : ℚ
deriving DecidableEq

/-- Descending lexicographic ranking on (median, worst, mean). -/
def RankLe (a b : CandRow) : Prop :=
  b.oos_net_return_median < a.oos_net_return_median ∨
  (b.oos_net_return_median = a.oos_net_return_median ∧
    (b.oos_net_return_worst < a.oos_net_return_worst ∨
     (b.oos_net_return_worst = a.oos_net_return_worst ∧
      b.oos_net_return_mean ≤ a.oos_net_return_mean)))

instance : DecidableRel RankLe := fun a b => by
  unfold RankLe; infer_instance

instance : IsTotal CandRow RankLe := ⟨by
  intro a b
  unfold RankLe
  rcases lt_trichotomy b.oos_net_return_median a.oos_net_return_median with h | h | h
  · exact Or.inl (Or.inl h)
  · rcases lt_trichotomy b.oos_net_return_worst a.oos_net_return_worst with h2 | h2 | h2
    · exact Or.inl (Or.inr ⟨h, Or.inl h2⟩)
    · rcases le_total b.oos_net_return_mean a.oos_net_return_mean with h3 | h3
      · exact Or.inl (Or.inr ⟨h, Or.inr ⟨h2, h3⟩⟩)
      · exact Or.inr (Or.inr ⟨h.symm, Or.inr ⟨h2.symm, h3⟩⟩)
    · exact Or.inr (Or.inr ⟨h.symm, Or.inl h2⟩)
  · exact Or.inr (Or.inl h)⟩

instance : IsTrans CandRow RankLe := ⟨by
  intro a b c hab hbc
  unfold RankLe at hab hbc ⊢
  rcases hab with h1 | ⟨e1, hab2⟩
  · rcases hbc with h2 | ⟨e2, _⟩
    · exact Or.inl (h2.trans h1)
    · exact Or.inl (e2.trans_lt h1)
  · rcases hbc with h2 | ⟨e2, hbc2⟩
    · exact Or.inl (h2.trans_eq e1)
    · refine Or.inr ⟨e2.trans e1, ?_⟩
      rcases hab2 with h1w | ⟨ew1, hm1⟩
      · rcases hbc2 with h2w | ⟨ew2, _⟩
        · exact Or.inl (h2w.trans h1w)
        · exact Or.inl (ew2.trans_lt h1w)
      · rcases hbc2 with h2w | ⟨ew2, hm2⟩
        · exact Or.inl (h2w.trans_eq ew1)
        · exact Or.inr ⟨ew2.trans ew1, hm2.trans hm1⟩⟩

/-- Eligibility: `pos_window_rate.fillna(-1.0) >= min_pos_window_rate`. -/
def passes (minRate : ℚ) (r : CandRow) : Bool :=
  decide (minRate ≤ r.pos_window_rate.getD (-1))

/-- The freeze-selection step: filter by pass rate, fall back to the full
list if the filter is empty (flagging it), sort by the descending
triple, take the first row.  `none` only on an empty candidate list
(where `iloc[0]` would raise). -/
def selectFrozen (rows : List CandRow) (minRate : ℚ) : Option (CandRow × Bool) :=
  match rows with
  | [] => none
  | _ :: _ =>
    let eligible := rows.filter (passes minRate)
    let pool := if eligible.isEmpty then rows else eligible
    let fb := eligible.isEmpty
    ((pool.insertionSort RankLe).head?).map (fun r => (r, fb))

/-! ### ScoreEngine (`scorecard.py`, `scorecard_v1`)

Input dicts are modelled by records of optional fields (`none` = key
absent); `_safe_float` swallows conversion failures.  The deflated-Sharpe
exposure (`dsr` in the output dict, fed from `stats.deflated_sharpe_ratio`,
modelled over ℝ in the stats section) affects no other output field and
is omitted from this record, as is the cosmetic `np.round(total, 6)`.
A present-but-empty summary dict being falsy in `val_summary or
test_summary or {}` is not modelled (no claim depends on it). -/

structure SummaryS where
  profit_factor : Option SVal
  expectancy_pct_of_start : Option SVal
  expectancy : Option SVal
  sharpe : Option SVal
  net_return_pct : Option SVal
  max_drawdown_intrabar_pct : Option SVal
  max_drawdown_close_len : Option SVal
  strategy_params : Bool
deriving DecidableEq

structure WfaSummaryS where
  pos_window_rate : Option SVal
deriving DecidableEq

structure WfaGateWfaS where
  wfa_pass_rate : Option SVal
deriving DecidableEq

structure WfaGateReportS where
  wfa : Option WfaGateWfaS
deriving DecidableEq

structure BasinReportS where
  basin_pass_rate : Option SVal
deriving DecidableEq

structure BasinWfaReportS where
  basin_pass_rate_median : Option SVal
deriving DecidableEq

structure ScoreWeights where
  robustness : ℚ
  risk : ℚ
  retq : ℚ
  impl : ℚ
deriving DecidableEq

/-- The dataclass defaults (55/25/15/5). -/
def defaultScoreWeights : ScoreWeights := ⟨55, 25, 15, 5⟩

/-- `_clip01`. -/
def clip01 (x : ℚ) : ℚ := max 0 (min 1 x)

/-- `_linear`: clamped linear map of `[x0, x1]` onto `[0, 1]`. -/
def linmap (x x0 x1 : ℚ) : ℚ :=
  if x1 = x0 then 0 else clip01 ((x - x0) / (x1 - x0))

/-- `_safe_float` of an optional dict value. -/
def safeFloat : Option SVal → Option ℚ
  | none => none
  | some v => svalFloat v

/-- Temporal-consistency input: `wfa_summary.pos_window_rate`, else the
gate report's `wfa.wfa_pass_rate`. -/
def posRateLookup (ws : Option WfaSummaryS) (wg : Option WfaGateReportS) :
    Option ℚ :=
  match (match ws with
         | some w => safeFloat w.pos_window_rate
         | none => none) with
  | some x => some x
  | none =>
    match wg with
    | some g =>
      match g.wfa with
      | some w2 => safeFloat w2.wfa_pass_rate
      | none => none
    | none => none

/-- Basin-stability input: WFA-basin median first, plain basin second. -/
def basinLookup (bwr : Option BasinWfaReportS) (br : Option BasinReportS) :
    Option ℚ :=
  match (match bwr with
         | some b => safeFloat b.basin_pass_rate_median
         | none => none) with
  | some x => some x
  | none =>
    match br with
    | some b => safeFloat b.basin_pass_rate
    | none => none

/-- Max drawdown: validation summary first, test summary second. -/
def ddLookup (vs ts : Option SummaryS) : Option ℚ :=
  match (match vs with
         | some v => safeFloat v.max_drawdown_intrabar_pct
         | none => none) with
  | some x => some x
  | none =>
    match ts with
    | some t => safeFloat t.max_drawdown_intrabar_pct
    | none => none

/-- Drawdown length: validation summary first, test summary second. -/
def ddlLookup (vs ts : Option SummaryS) : Option ℚ :=
  match (match vs with
         | some v => safeFloat v.max_drawdown_close_len
         | none => none) with
  | some x => some x
  | none =>
    match ts with
    | some t => safeFloat t.max_drawdown_close_len
    | none => none

/-- `s0 = val_summary or test_summary or {}`. -/
def s0Of (vs ts : Option SummaryS) : Option SummaryS :=
  match vs with
  | some v => some v
  | none => ts

def pfLookup (vs ts : Option SummaryS) : Option ℚ :=
  match s0Of vs ts with
  | some s => safeFloat s.profit_factor
  | none => none

/-- Expectancy prefers the normalized `expectancy_pct_of_start`. -/
def expLookup (vs ts : Option SummaryS) : Option ℚ :=
  match s0Of vs ts with
  | some s =>
    match safeFloat s.expectancy_pct_of_start with
    | some x => some x
    | none => safeFloat s.expectancy
  | none => none

def sharpeLookup (vs ts : Option SummaryS) : Option ℚ :=
  match s0Of vs ts with
  | some s => safeFloat s.sharpe
  | none => none

def netrLookup (vs ts : Option SummaryS) : Option ℚ :=
  match s0Of vs ts with
  | some s => safeFloat s.net_return_pct
  | none => none

/-- Truthiness of `s0.get("strategy_params")`. -/
def stratTruthy (vs ts : Option SummaryS) : Bool :=
  match s0Of vs ts with
  | some s => s.strategy_params
  | none => false

/-- `sorted(list(set(missing)))`. -/
def sortDedup (l : List String) : List String :=
  (l.dedup).insertionSort (fun a b => a ≤ b)

structure Scorecard where
  in_pos_window_rate : ℚ
  in_basin_pass_rate : ℚ
  in_max_drawdown_intrabar_pct : ℚ
  in_profit_factor : ℚ
  in_expectancy : ℚ
  in_sharpe : ℚ
  in_net_return_pct : ℚ
  sub_robustness : ℚ
  sub_risk : ℚ
  sub_return_quality : ℚ
  sub_implementability : ℚ
  sub_temporal_consistency : ℚ
  sub_basin : ℚ
  total_score : ℚ
  missing : List String
deriving DecidableEq

def scorecard_v1 (ws : Option WfaSummaryS) (wg : Option WfaGateReportS)
    (br : Option BasinReportS) (bwr : Option BasinWfaReportS)
    (vs ts : Option SummaryS) (w : ScoreWeights) : Scorecard :=
  let pos := (posRateLookup ws wg).getD 0
  let basin := (basinLookup bwr br).getD 0
  let temporal := linmap pos 0 0.7
  let basinScore := linmap basin 0 0.3
  let rob := 0.6 * temporal + 0.4 * basinScore
  let dd := (ddLookup vs ts).getD 100
  let riskDd := 1 - linmap dd 5 20
  let riskLen :=
    match ddlLookup vs ts with
    | none => (0.5 : ℚ)
    | some ddl => 1 - linmap ddl 500 5000
  let risk := 0.7 * riskDd + 0.3 * riskLen
  let pf := (pfLookup vs ts).getD 0
  let exps := (expLookup vs ts).getD 0
  let shp := (sharpeLookup vs ts).getD 0
  let netr := (netrLookup vs ts).getD 0
  let pf01 := clip01 ((pf - 0.7) / (1.3 - 0.7))
  let exp01 := clip01 ((exps + 0.05) / 0.10)
  let sharpe01 := clip01 ((shp + 1) / 2)
  let netr01 := linmap netr (-5) 5
  let retq := 0.35 * pf01 + 0.25 * exp01 + 0.25 * sharpe01 + 0.15 * netr01
  let impl : ℚ := if stratTruthy vs ts then 1 else 0.5
  let total := w.robustness * rob + w.risk * risk + w.retq * retq + w.impl * impl
  let missing :=
    (if posRateLookup ws wg = none then ["wfa_pos_window_rate"] else []) ++
    (if basinLookup bwr br = none then ["basin_pass_rate"] else []) ++
    (if ddLookup vs ts = none then ["max_drawdown_intrabar_pct"] else []) ++
    (if ddlLookup vs ts = none then ["max_drawdown_close_len"] else []) ++
    (if pfLookup vs ts = none then ["profit_factor"] else []) ++
    (if expLookup vs ts = none then ["expectancy"] else []) ++
    (if sharpeLookup vs ts = none then ["sharpe"] else []) ++
    (if netrLookup vs ts = none then ["net_return_pct"] else []) ++
    (if stratTruthy vs ts then [] else ["strategy_params"])
  ⟨pos, basin, dd, pf, exps, shp, netr,
   rob, risk, retq, impl, temporal, basinScore, total, sortDedup missing⟩

/-! ### Deflated Sharpe ratio (`stats.py`, `deflated_sharpe_ratio`)

The one genuinely analytic function: floats are modelled as reals.
`math.erf` is the Gauss error function, defined here from the interval
integral; `Phi(z) = (1 + erf(z/sqrt 2)) / 2` is the standard normal CDF
as the source computes it.  For real arguments and `n_trials >= 2` no
exception can occur (the variance is clamped to 1e-12 before the square
root and the log argument is >= 2), so the `except` branch is reachable
only through the `n_trials < 2` guard, which is the `none` case. -/

/-- `∫ 0..x exp(-t²)`, the kernel of `math.erf`. -/
noncomputable def gaussInt (x : ℝ) : ℝ := ∫ t in (0:ℝ)..x, Real.exp (-t ^ 2)

/-- `math.erf`. -/
noncomputable def erf (x : ℝ) : ℝ := 2 / Real.sqrt Real.pi * gaussInt x

/-- `Phi(z) = 0.5 * (1 + erf (z / sqrt 2))`, as in the source. -/
noncomputable def normCdf (z : ℝ) : ℝ := 0.5 * (1 + erf (z / Real.sqrt 2))

/-- The value computed by `deflated_sharpe_ratio` for `n_trials ≥ 2`. -/
noncomputable def dsrVal (sharpe : ℝ) (n : ℤ) (skew kurt sr_ref : ℝ) : ℝ :=
  let sr := sharpe
  let emax := Real.sqrt (2 * Real.log (n : ℝ))
  let denom : ℝ := 252
  let var := (1 - skew * sr + ((kurt - 1) / 4) * sr ^ 2) / max (denom - 1) 1
  let sd := Real.sqrt (max var 1e-12)
  let thresh := sr_ref + emax * sd
  let z := (sr - thresh) / sd
  max 0 (min 1 (normCdf z))

/-- `deflated_sharpe_ratio`: `None` for `n_trials < 2`. -/
noncomputable def deflated_sharpe_ratio (sharpe : ℝ) (n_trials : ℤ)
    (skew kurt sr_ref : ℝ) : Option ℝ :=
  if n_trials < 2 then none
  else some (dsrVal sharpe n_trials skew kurt sr_ref)

/-! ## Theorems -/

theorem Ts.le_def (a b : Ts) : (a ≤ b) = (key a ≤ key b) := rfl
theorem Ts.lt_def (a b : Ts) : (a < b) = (key a < key b) := rfl

theorem daysInMonth_bounds (y : Int) (m : Nat) :
    1 ≤ daysInMonth y m ∧ daysInMonth y m ≤ 31 := by
  unfold daysInMonth
  split_ifs <;> omega

theorem daysInMonth_december (y : Int) : daysInMonth y 12 = 31 := by
  simp [daysInMonth]

theorem addMonths_matIdx (k : Int) (t : Ts) :
    matIdx (addMonths k t) = matIdx t + k := by
  simp only [addMonths, matIdx]
  omega

theorem addMonths_valid (k : Int) (t : Ts) (h : Valid t) :
    Valid (addMonths k t) := by
  obtain ⟨h1, h2, h3, h4, h5⟩ := h
  have hdim := daysInMonth_bounds ((matIdx t + k) / 12)
    (((matIdx t + k) % 12).toNat + 1)
  simp only [Valid, addMonths, matIdx] at hdim ⊢
  omega

theorem sub1s_valid (t : Ts) (h : Valid t) : Valid (sub1s t) := by
  obtain ⟨h1, h2, h3, h4, h5⟩ := h
  have hdim := daysInMonth_bounds t.y (t.m - 1)
  unfold sub1s
  split_ifs with c1 c2 c3 <;> simp only [Valid] <;>
    first
      | omega
      | (refine ⟨by omega, by omega, by omega, ?_, by omega⟩
         rw [daysInMonth_december])

theorem key_bounds (t : Ts) (h : Valid t) :
    matIdx t * 2678400 ≤ key t ∧ key t ≤ matIdx t * 2678400 + 2678399 := by
  obtain ⟨h1, h2, h3, h4, h5⟩ := h
  have hdim := daysInMonth_bounds t.y t.m
  simp only [key]
  constructor <;> nlinarith

theorem matIdx_le_of_key_le {a b : Ts} (ha : Valid a) (hb : Valid b)
    (h : key a ≤ key b) : matIdx a ≤ matIdx b := by
  have h1 := key_bounds a ha
  have h2 := key_bounds b hb
  nlinarith [h1.1, h2.2]

theorem key_lt_of_matIdx_lt {a b : Ts} (ha : Valid a) (hb : Valid b)
    (h : matIdx a < matIdx b) : key a < key b := by
  have h1 := key_bounds a ha
  have h2 := key_bounds b hb
  nlinarith [h1.2, h2.1]

theorem sub1s_key_lt (t : Ts) (h : Valid t) : key (sub1s t) < key t := by
  obtain ⟨h1, h2, h3, h4, h5⟩ := h
  have hdim := daysInMonth_bounds t.y (t.m - 1)
  have hdim2 := daysInMonth_bounds t.y t.m
  unfold sub1s
  split_ifs with c1 c2 c3 <;> simp only [key, matIdx] <;> push_cast <;> omega

theorem matIdx_sub1s (t : Ts) (h : Valid t) :
    matIdx (sub1s t) = matIdx t ∨ matIdx (sub1s t) = matIdx t - 1 := by
  obtain ⟨h1, h2, h3, h4, h5⟩ := h
  unfold sub1s
  split_ifs with c1 c2 c3 <;> simp only [matIdx] <;> push_cast <;>
    first
      | exact Or.inl trivial
      | omega

/-- When `sub1s` rolls the month back, it lands on the last second of a month. -/
theorem sub1s_month_max (u : Ts) (hu : Valid u)
    (h : matIdx (sub1s u) ≠ matIdx u) :
    (sub1s u).d = daysInMonth (sub1s u).y (sub1s u).m ∧ (sub1s u).sod = 86399 := by
  obtain ⟨h1, h2, h3, h4, h5⟩ := hu
  unfold sub1s at h ⊢
  split_ifs at h ⊢ with c1 c2 c3
  · exact absurd (by simp [matIdx]) h
  · exact absurd (by simp [matIdx]) h
  · exact ⟨rfl, rfl⟩
  · exact ⟨(daysInMonth_december _).symm, rfl⟩

theorem matIdx_fields {a b : Ts} (ha : Valid a) (hb : Valid b)
    (h : matIdx a = matIdx b) : a.y = b.y ∧ a.m = b.m := by
  obtain ⟨a1, a2, _, _, _⟩ := ha
  obtain ⟨b1, b2, _, _, _⟩ := hb
  simp only [matIdx] at h
  omega

/-- A timestamp strictly earlier in month index is at or before the
last second of the previous month of any later-month timestamp. -/
theorem key_le_key_sub1s {t u : Ts} (ht : Valid t) (hu : Valid u)
    (h : matIdx t < matIdx u) : key t ≤ key (sub1s u) := by
  have hv : Valid (sub1s u) := sub1s_valid u hu
  rcases lt_or_le (matIdx t) (matIdx (sub1s u)) with hlt | hge
  · exact le_of_lt (key_lt_of_matIdx_lt ht hv hlt)
  · rcases matIdx_sub1s u hu with heq | heq
    · omega
    · have hmt : matIdx (sub1s u) = matIdx t := by omega
      have hmax : (sub1s u).d = daysInMonth (sub1s u).y (sub1s u).m ∧
          (sub1s u).sod = 86399 := by
        refine sub1s_month_max u hu ?_
        omega
      obtain ⟨hy, hm⟩ := matIdx_fields ht hv hmt.symm
      obtain ⟨t1, t2, t3, t4, t5⟩ := ht
      have ht4 : t.d ≤ daysInMonth (sub1s u).y (sub1s u).m := by
        rw [← hy, ← hm]; exact t4
      simp only [key, hmt, hmax.1, hmax.2]
      omega

/-- For a positive month offset, `oos_start ≤ oos_start + k months - 1s`. -/
theorem key_le_key_sub1s_addMonths {k : Int} (hk : 1 ≤ k) (t : Ts) (h : Valid t) :
    key t ≤ key (sub1s (addMonths k t)) := by
  apply key_le_key_sub1s h (addMonths_valid k t h)
  rw [addMonths_matIdx]
  omega

theorem addMonths_zero (s : Ts) (h : Valid s) : addMonths 0 s = s := by
  obtain ⟨h1, h2, h3, h4, h5⟩ := h
  have hy : matIdx s / 12 = s.y := by
    simp only [matIdx]; omega
  have hm : (matIdx s % 12).toNat + 1 = s.m := by
    simp only [matIdx]; omega
  cases s with
  | mk y m d sod =>
    have h4' : d ≤ daysInMonth y m := h4
    simp [addMonths, hy, hm, min_eq_left h4']

/-- Anything in the same month as a last-second-of-month timestamp is at
or before it. -/
theorem key_le_of_month_max {a b : Ts} (ha : Valid a) (hb : Valid b)
    (hmi : matIdx a = matIdx b) (hd : b.d = daysInMonth b.y b.m)
    (hsod : b.sod = 86399) : key a ≤ key b := by
  obtain ⟨hy, hm⟩ := matIdx_fields ha hb hmi
  have had : a.d ≤ daysInMonth b.y b.m := by
    rw [← hy, ← hm]; exact ha.2.2.2.1
  have hsa : a.sod < 86400 := ha.2.2.2.2
  simp only [key, hmi]
  omega

/-- For a negative month step the window end keeps moving backwards. -/
theorem oosEnd_antitone {oosM : Int} (hneg : oosM ≤ -1) (s : Ts) (hv : Valid s) :
    key (sub1s (addMonths oosM (addMonths oosM s))) ≤
      key (sub1s (addMonths oosM s)) := by
  have hvA : Valid (addMonths oosM s) := addMonths_valid oosM s hv
  have hvB : Valid (addMonths oosM (addMonths oosM s)) := addMonths_valid _ _ hvA
  have hmA := addMonths_matIdx oosM s
  have hmB := addMonths_matIdx oosM (addMonths oosM s)
  have h1 := matIdx_sub1s (addMonths oosM s) hvA
  have h2 := matIdx_sub1s (addMonths oosM (addMonths oosM s)) hvB
  rcases lt_or_le (matIdx (sub1s (addMonths oosM (addMonths oosM s))))
    (matIdx (sub1s (addMonths oosM s))) with h | h
  · exact le_of_lt (key_lt_of_matIdx_lt (sub1s_valid _ hvB) (sub1s_valid _ hvA) h)
  · have heq : matIdx (sub1s (addMonths oosM (addMonths oosM s))) =
        matIdx (sub1s (addMonths oosM s)) := by omega
    have hAmax := sub1s_month_max (addMonths oosM s) hvA (by omega)
    exact key_le_of_month_max (sub1s_valid _ hvB) (sub1s_valid _ hvA)
      heq hAmax.1 hAmax.2

theorem tsMaxFold_mem (h : Ts) (l : List Ts) : tsMaxFold h l ∈ h :: l := by
  induction l generalizing h with
  | nil => simp [tsMaxFold]
  | cons x xs ih =>
    have hstep : tsMaxFold h (x :: xs) = tsMaxFold (if key h < key x then x else h) xs := rfl
    rcases List.mem_cons.mp (ih (if key h < key x then x else h)) with hm | hm
    · rw [hstep, hm]
      split_ifs <;> simp
    · rw [hstep]
      exact List.mem_cons.mpr (Or.inr (List.mem_cons.mpr (Or.inr hm)))

theorem tsMinFold_mem (h : Ts) (l : List Ts) : tsMinFold h l ∈ h :: l := by
  induction l generalizing h with
  | nil => simp [tsMinFold]
  | cons x xs ih =>
    have hstep : tsMinFold h (x :: xs) = tsMinFold (if key x < key h then x else h) xs := rfl
    rcases List.mem_cons.mp (ih (if key x < key h then x else h)) with hm | hm
    · rw [hstep, hm]
      split_ifs <;> simp
    · rw [hstep]
      exact List.mem_cons.mpr (Or.inr (List.mem_cons.mpr (Or.inr hm)))

theorem tsMax_mem {l : List Ts} {e : Ts} (h : tsMax l = some e) : e ∈ l := by
  cases l with
  | nil => simp [tsMax] at h
  | cons x xs =>
    simp only [tsMax, Option.some.injEq] at h
    exact h ▸ tsMaxFold_mem x xs

theorem tsMin_mem {l : List Ts} {s : Ts} (h : tsMin l = some s) : s ∈ l := by
  cases l with
  | nil => simp [tsMin] at h
  | cons x xs =>
    simp only [tsMin, Option.some.injEq] at h
    exact h ▸ tsMinFold_mem x xs

/-- Splitting a strictly sorted list at a key threshold loses and
duplicates nothing: the kept-below part followed by the kept-above part
is the original list.  `p` must be downward closed along the key order. -/
theorem sorted_filter_partition (p : Ts → Bool) (l : List Ts)
    (hs : List.Pairwise (fun a b => key a < key b) l)
    (hp : ∀ a b : Ts, key a ≤ key b → p b = true → p a = true) :
    l.filter p ++ l.filter (fun r => !(p r)) = l := by
  induction l with
  | nil => rfl
  | cons x xs ih =>
    rcases List.pairwise_cons.mp hs with ⟨hx, hxs⟩
    by_cases hpx : p x = true
    · rw [List.filter_cons, List.filter_cons, if_pos hpx,
        if_neg (by simp [hpx]), List.cons_append, ih hxs]
    · have hpx0 : p x = false := by revert hpx; cases p x <;> simp
      have hnone : xs.filter p = [] := by
        rw [List.filter_eq_nil_iff]
        intro y hy hpy
        exact hpx (hp x y (le_of_lt (hx y hy)) hpy)
      have hall : xs.filter (fun r => !(p r)) = xs := by
        rw [List.filter_eq_self]
        intro y hy
        have : p y = false := by
          revert hpx
          cases hq : p y
          · intro _; simp
          · intro hc; exact absurd (hp x y (le_of_lt (hx y hy)) hq) hc
        simp [this]
      rw [List.filter_cons, List.filter_cons, if_neg hpx,
        if_pos (by simp [hpx0]), hnone, hall, List.nil_append]

theorem wfaLoop_sound (endT : Ts) (trainM oosM : Int) (h1 : 1 ≤ oosM) :
    ∀ (fuel : Nat) (s : Ts) (l : List WfaWindow), Valid s →
      wfaLoop endT trainM oosM fuel s = some l →
      (∀ w rest, l = w :: rest → w.oos_start = s) ∧
      List.Chain' (fun a b => b.oos_start = addMonths oosM a.oos_start) l ∧
      ∀ w ∈ l, key w.train_end < key w.oos_start ∧
        key w.oos_start ≤ key w.oos_end ∧ key w.oos_end ≤ key endT := by
  intro fuel
  induction fuel with
  | zero => intro s l _ hl; exact absurd hl (by simp [wfaLoop])
  | succ n ih =>
    intro s l hv hl
    rw [wfaLoop] at hl
    split_ifs at hl with hg
    · injection hl with hl2
      subst hl2
      refine ⟨?_, List.chain'_nil, ?_⟩
      · intro w rest h
        cases h
      · intro w hw
        cases hw
    · cases hrec : wfaLoop endT trainM oosM n (addMonths oosM s) with
      | none => rw [hrec] at hl; cases hl
      | some ws =>
        rw [hrec] at hl
        injection hl with hl2
        subst hl2
        obtain ⟨ihhead, ihchain, ihall⟩ := ih (addMonths oosM s) ws
          (addMonths_valid oosM s hv) hrec
        refine ⟨?_, ?_, ?_⟩
        · intro w rest h
          cases h
          rfl
        · rw [List.chain'_cons']
          refine ⟨?_, ihchain⟩
          intro b hb
          cases ws with
          | nil => cases hb
          | cons w2 ws2 =>
            simp only [List.head?_cons, Option.mem_def, Option.some.injEq] at hb
            subst hb
            exact ihhead w2 ws2 rfl
        · intro w hw
          rcases List.mem_cons.mp hw with h | h
          · subst h
            refine ⟨sub1s_key_lt s hv, key_le_key_sub1s_addMonths h1 s hv, ?_⟩
            exact le_of_not_lt hg
          · exact ihall w h

theorem wfaLoop_total (endT : Ts) (trainM oosM : Int) (h1 : 1 ≤ oosM)
    (hve : Valid endT) :
    ∀ (fuel : Nat) (s : Ts), Valid s →
      (matIdx endT + 2 - matIdx s).toNat < fuel →
      (wfaLoop endT trainM oosM fuel s).isSome := by
  intro fuel
  induction fuel with
  | zero => intro s _ hbound; omega
  | succ n ih =>
    intro s hv hbound
    rw [wfaLoop]
    split_ifs with hg
    · rfl
    · have hvo : Valid (sub1s (addMonths oosM s)) :=
        sub1s_valid _ (addMonths_valid oosM s hv)
      have hle : key (sub1s (addMonths oosM s)) ≤ key endT := le_of_not_lt hg
      have hmi : matIdx (sub1s (addMonths oosM s)) ≤ matIdx endT :=
        matIdx_le_of_key_le hvo hve hle
      have hms := matIdx_sub1s (addMonths oosM s) (addMonths_valid oosM s hv)
      have hadd := addMonths_matIdx oosM s
      have hnext : (matIdx endT + 2 - matIdx (addMonths oosM s)).toNat < n := by
        omega
      have := ih (addMonths oosM s) (addMonths_valid oosM s hv) hnext
      cases hrec : wfaLoop endT trainM oosM n (addMonths oosM s) with
      | none => rw [hrec] at this; cases this
      | some ws => rfl

/-- With a zero month step the loop state never changes, so once the
break guard is false it is false forever: the loop never returns. -/
theorem wfaLoop_zero_stuck (endT : Ts) (trainM : Int) (s : Ts) (hv : Valid s)
    (hg : ¬ key endT < key (sub1s (addMonths 0 s))) :
    ∀ fuel : Nat, wfaLoop endT trainM 0 fuel s = none := by
  intro fuel
  induction fuel with
  | zero => rfl
  | succ n ih =>
    rw [wfaLoop, if_neg hg, addMonths_zero s hv, ih]

/-- With a negative month step the window end keeps moving backwards, so
once the break guard is false it is false forever: the loop never
returns. -/
theorem wfaLoop_neg_stuck (endT : Ts) (trainM oosM : Int) (hneg : oosM ≤ -1) :
    ∀ (fuel : Nat) (s : Ts), Valid s →
      key (sub1s (addMonths oosM s)) ≤ key endT →
      wfaLoop endT trainM oosM fuel s = none := by
  intro fuel
  induction fuel with
  | zero => intro s _ _; rfl
  | succ n ih =>
    intro s hv hle
    rw [wfaLoop, if_neg (not_lt.mpr hle),
      ih (addMonths oosM s) (addMonths_valid oosM s hv)
        (le_trans (oosEnd_antitone hneg s hv) hle)]

/-! ### Claim C1 -/

/-- C1: for every valid input series (strictly sorted, spanning more than
12 months so that something precedes the test cut), `split` succeeds and
returns train, val, test that partition the input exactly — concatenating
them in order reconstructs the series, so no row is lost or duplicated —
and test is exactly the set of rows at or after `max(timestamp) - 12
months`. -/
theorem C1_split_partition (series : List Ts) (hs : sortedKeys series)
    (e : Ts) (he : tsMax series = some e)
    (hspan : ∃ t ∈ series, key t < key (addMonths (-12) e)) :
    ∃ r, split_train_val_test_last12m series = some r ∧
      (r.train ++ r.val) ++ r.test = series ∧
      r.cut_test_start_utc = addMonths (-12) e ∧
      r.test = series.filter (fun t => decide (key (addMonths (-12) e) ≤ key t)) := by
  obtain ⟨t0, ht0, hlt⟩ := hspan
  have hmem : t0 ∈ series.filter (fun r => decide (key r < key (addMonths (-12) e))) :=
    List.mem_filter.mpr ⟨ht0, by simpa using hlt⟩
  cases hflt : series.filter (fun r => decide (key r < key (addMonths (-12) e))) with
  | nil => rw [hflt] at hmem; cases hmem
  | cons p ps =>
    have hsplit : split_train_val_test_last12m series =
        some ⟨(p :: ps).filter (fun r => decide (key r ≤
                key (tsMinFold p ps) + (key (tsMaxFold p ps) - key (tsMinFold p ps)) * 4 / 5)),
              (p :: ps).filter (fun r => decide (
                key (tsMinFold p ps) + (key (tsMaxFold p ps) - key (tsMinFold p ps)) * 4 / 5 < key r)),
              series.filter (fun r => decide (key (addMonths (-12) e) ≤ key r)),
              addMonths (-12) e⟩ := by
      simp only [split_train_val_test_last12m, he, hflt]
    refine ⟨_, hsplit, ?_, rfl, rfl⟩
    have hpre_sorted : List.Pairwise (fun a b => key a < key b) (p :: ps) := by
      rw [← hflt]
      exact hs.sublist (List.filter_sublist series)
    have h12 := sorted_filter_partition
      (fun r => decide (key r ≤
        key (tsMinFold p ps) + (key (tsMaxFold p ps) - key (tsMinFold p ps)) * 4 / 5))
      (p :: ps) hpre_sorted
      (by intro a b hab hb; simp only [decide_eq_true_eq] at hb ⊢; omega)
    have h34 := sorted_filter_partition
      (fun r => decide (key r < key (addMonths (-12) e))) series hs
      (by intro a b hab hb; simp only [decide_eq_true_eq] at hb ⊢; omega)
    have hcompl1 : ∀ r : Ts, (!decide (key r ≤
        key (tsMinFold p ps) + (key (tsMaxFold p ps) - key (tsMinFold p ps)) * 4 / 5)) =
        decide (key (tsMinFold p ps) + (key (tsMaxFold p ps) - key (tsMinFold p ps)) * 4 / 5
          < key r) := by
      intro r
      by_cases h : key r ≤
          key (tsMinFold p ps) + (key (tsMaxFold p ps) - key (tsMinFold p ps)) * 4 / 5
      · simp [h, not_lt.mpr h]
      · simp [h, not_le.mp h]
    have hcompl2 : ∀ r : Ts,
        (!decide (key r < key (addMonths (-12) e))) =
        decide (key (addMonths (-12) e) ≤ key r) := by
      intro r
      by_cases h : key r < key (addMonths (-12) e)
      · simp [h, not_le.mpr h]
      · simp [h, not_lt.mp h]
    rw [List.filter_congr (fun x _ => hcompl1 x)] at h12
    rw [List.filter_congr (fun x _ => hcompl2 x)] at h34
    rw [h12, ← hflt]
    exact h34

/-- C1 witness: a concrete three-row series spanning 29 months. -/
theorem C1_split_partition_witness :
    sortedKeys [(⟨2018, 1, 1, 0⟩ : Ts), ⟨2019, 6, 1, 0⟩, ⟨2020, 6, 1, 0⟩] ∧
    tsMax [(⟨2018, 1, 1, 0⟩ : Ts), ⟨2019, 6, 1, 0⟩, ⟨2020, 6, 1, 0⟩] =
      some ⟨2020, 6, 1, 0⟩ ∧
    (∃ t ∈ [(⟨2018, 1, 1, 0⟩ : Ts), ⟨2019, 6, 1, 0⟩, ⟨2020, 6, 1, 0⟩],
      key t < key (addMonths (-12) ⟨2020, 6, 1, 0⟩)) ∧
    ∃ r, split_train_val_test_last12m
        [(⟨2018, 1, 1, 0⟩ : Ts), ⟨2019, 6, 1, 0⟩, ⟨2020, 6, 1, 0⟩] = some r ∧
      (r.train ++ r.val) ++ r.test =
        [(⟨2018, 1, 1, 0⟩ : Ts), ⟨2019, 6, 1, 0⟩, ⟨2020, 6, 1, 0⟩] ∧
      r.cut_test_start_utc = addMonths (-12) ⟨2020, 6, 1, 0⟩ ∧
      r.test = [(⟨2018, 1, 1, 0⟩ : Ts), ⟨2019, 6, 1, 0⟩, ⟨2020, 6, 1, 0⟩].filter
        (fun t => decide (key (addMonths (-12) (⟨2020, 6, 1, 0⟩ : Ts)) ≤ key t)) :=
  ⟨by decide, by decide, by decide,
   C1_split_partition _ (by decide) _ (by decide) (by decide)⟩

/-! ### Claim C2 -/

/-- C2: every window list the generator returns (for a positive OOS step)
has consecutive `oos_start`s exactly `oos_months` apart, every window
satisfies `train_end < oos_start ≤ oos_end ≤ max(index)`, and when the
series ends before the first window's OOS end the result is the empty
list (returned normally, not an error). -/
theorem C2_windows_shape (index : List Ts) (trainM oosM : Int)
    (hv : ∀ t ∈ index, Valid t) (s e : Ts)
    (hsmin : tsMin index = some s) (hemax : tsMax index = some e)
    (l : List WfaWindow) (hl : make_quarterly_wfa_windows index trainM oosM l) :
    List.Chain' (fun a b => b.oos_start = addMonths oosM a.oos_start) l ∧
    (∀ w ∈ l, key w.train_end < key w.oos_start ∧
      key w.oos_start ≤ key w.oos_end ∧ key w.oos_end ≤ key e) ∧
    (key e < key (sub1s (addMonths oosM (addMonths trainM s))) → l = []) := by
  obtain ⟨s', e', fuel, hs', he', hloop⟩ := hl
  rw [hsmin] at hs'
  rw [hemax] at he'
  injection hs' with hs2
  injection he' with he2
  subst hs2
  subst he2
  have hvs : Valid (addMonths trainM s) :=
    addMonths_valid trainM s (hv s (tsMin_mem hsmin))
  rcases le_or_lt 1 oosM with h1 | h0
  · obtain ⟨_, hchain, hall⟩ :=
      wfaLoop_sound e trainM oosM h1 fuel (addMonths trainM s) l hvs hloop
    refine ⟨hchain, hall, ?_⟩
    intro hg
    cases fuel with
    | zero => exact absurd hloop (by simp [wfaLoop])
    | succ n =>
      rw [wfaLoop, if_pos hg] at hloop
      injection hloop with hl2
      exact hl2.symm
  · -- non-positive step: any returned list is empty (the loop can only
    -- return by breaking on its very first iteration)
    have hempty : l = [] := by
      cases fuel with
      | zero => exact absurd hloop (by simp [wfaLoop])
      | succ n =>
        by_cases hgd : key e < key (sub1s (addMonths oosM (addMonths trainM s)))
        · rw [wfaLoop, if_pos hgd] at hloop
          injection hloop with hl2
          exact hl2.symm
        · exfalso
          rcases eq_or_lt_of_le (by omega : oosM ≤ 0) with hz | hneg
          · rw [hz] at hloop hgd
            rw [wfaLoop_zero_stuck e trainM (addMonths trainM s) hvs hgd (n + 1)]
              at hloop
            cases hloop
          · rw [wfaLoop_neg_stuck e trainM oosM (by omega) (n + 1)
              (addMonths trainM s) hvs (not_lt.mp hgd)] at hloop
            cases hloop
    subst hempty
    exact ⟨List.chain'_nil, by simp, fun _ => rfl⟩

/-- C2 witness: 17 months of history with `train=12`, `oos=3` produces
exactly one window with the expected fields. -/
theorem C2_windows_shape_witness :
    (∀ t ∈ [(⟨2020, 1, 1, 0⟩ : Ts), ⟨2021, 6, 1, 0⟩], Valid t) ∧
    tsMin [(⟨2020, 1, 1, 0⟩ : Ts), ⟨2021, 6, 1, 0⟩] = some ⟨2020, 1, 1, 0⟩ ∧
    tsMax [(⟨2020, 1, 1, 0⟩ : Ts), ⟨2021, 6, 1, 0⟩] = some ⟨2021, 6, 1, 0⟩ ∧
    make_quarterly_wfa_windows [(⟨2020, 1, 1, 0⟩ : Ts), ⟨2021, 6, 1, 0⟩] 12 3
      [⟨⟨2020, 1, 1, 0⟩, ⟨2020, 12, 31, 86399⟩, ⟨2021, 1, 1, 0⟩, ⟨2021, 3, 31, 86399⟩⟩] ∧
    (List.Chain' (fun a b => b.oos_start = addMonths 3 a.oos_start)
      [(⟨⟨2020, 1, 1, 0⟩, ⟨2020, 12, 31, 86399⟩, ⟨2021, 1, 1, 0⟩, ⟨2021, 3, 31, 86399⟩⟩ : WfaWindow)] ∧
     (∀ w ∈ [(⟨⟨2020, 1, 1, 0⟩, ⟨2020, 12, 31, 86399⟩, ⟨2021, 1, 1, 0⟩, ⟨2021, 3, 31, 86399⟩⟩ : WfaWindow)],
        key w.train_end < key w.oos_start ∧
        key w.oos_start ≤ key w.oos_end ∧ key w.oos_end ≤ key (⟨2021, 6, 1, 0⟩ : Ts)) ∧
     (key (⟨2021, 6, 1, 0⟩ : Ts) <
        key (sub1s (addMonths 3 (addMonths 12 ⟨2020, 1, 1, 0⟩))) →
      [(⟨⟨2020, 1, 1, 0⟩, ⟨2020, 12, 31, 86399⟩, ⟨2021, 1, 1, 0⟩, ⟨2021, 3, 31, 86399⟩⟩ : WfaWindow)] = [])) :=
  ⟨by decide, by decide, by decide,
   ⟨⟨2020, 1, 1, 0⟩, ⟨2021, 6, 1, 0⟩, 2, by decide, by decide, by decide⟩,
   C2_windows_shape [(⟨2020, 1, 1, 0⟩ : Ts), ⟨2021, 6, 1, 0⟩] 12 3
     (by decide) ⟨2020, 1, 1, 0⟩ ⟨2021, 6, 1, 0⟩ (by decide) (by decide)
     [⟨⟨2020, 1, 1, 0⟩, ⟨2020, 12, 31, 86399⟩, ⟨2021, 1, 1, 0⟩, ⟨2021, 3, 31, 86399⟩⟩]
     ⟨⟨2020, 1, 1, 0⟩, ⟨2021, 6, 1, 0⟩, 2, by decide, by decide, by decide⟩⟩

/-! ### Claim C10 -/

theorem wfaLoop_stuck_at_zero_step :
    ∀ fuel : Nat,
      wfaLoop ⟨2021, 6, 1, 0⟩ 12 0 fuel ⟨2021, 1, 1, 0⟩ = none := by
  intro fuel
  induction fuel with
  | zero => rfl
  | succ n ih =>
    rw [wfaLoop]
    rw [if_neg (by decide)]
    have hfix : addMonths 0 (⟨2021, 1, 1, 0⟩ : Ts) = ⟨2021, 1, 1, 0⟩ := by decide
    rw [hfix, ih]

/-- C10 counterexample: with `oos_months = 0` and 17 months of history the
source loop never breaks (`oos_end = oos_start - 1s` stays before the
index max and `oos_start` never advances), so `make_quarterly_wfa_windows`
does not terminate on this tz-aware input — the claim's "for every choice
of train_months and oos_months, including non-positive oos_months" fails. -/
theorem C10_nontermination_counterexample :
    ¬ wfaTerminates [(⟨2020, 1, 1, 0⟩ : Ts), ⟨2021, 6, 1, 0⟩] 12 0 := by
  rintro ⟨l, s, e, fuel, hs, he, hloop⟩
  have hs0 : tsMin [(⟨2020, 1, 1, 0⟩ : Ts), ⟨2021, 6, 1, 0⟩] =
      some ⟨2020, 1, 1, 0⟩ := by decide
  have he0 : tsMax [(⟨2020, 1, 1, 0⟩ : Ts), ⟨2021, 6, 1, 0⟩] =
      some ⟨2021, 6, 1, 0⟩ := by decide
  rw [hs0] at hs
  rw [he0] at he
  injection hs with hs2
  injection he with he2
  subst hs2
  subst he2
  have hstart : addMonths 12 (⟨2020, 1, 1, 0⟩ : Ts) = ⟨2021, 1, 1, 0⟩ := by decide
  rw [hstart, wfaLoop_stuck_at_zero_step fuel] at hloop
  cases hloop

/-- C10 amended: the generator terminates for every nonempty tz-aware
index of well-formed timestamps and every `train_months`, provided
`oos_months ≥ 1`; for `oos_months ≤ 0` it can hang (see the
counterexample). -/
theorem C10_terminates_for_positive_oos (index : List Ts) (trainM oosM : Int)
    (h1 : 1 ≤ oosM) (hne : index ≠ []) (hv : ∀ t ∈ index, Valid t) :
    wfaTerminates index trainM oosM := by
  cases hidx : index with
  | nil => exact absurd hidx hne
  | cons x xs =>
    subst hidx
    have hsmin : tsMin (x :: xs) = some (tsMinFold x xs) := rfl
    have hemax : tsMax (x :: xs) = some (tsMaxFold x xs) := rfl
    have hvs : Valid (tsMinFold x xs) := hv _ (tsMinFold_mem x xs)
    have hve : Valid (tsMaxFold x xs) := hv _ (tsMaxFold_mem x xs)
    have hvs0 : Valid (addMonths trainM (tsMinFold x xs)) :=
      addMonths_valid _ _ hvs
    have htot := wfaLoop_total (tsMaxFold x xs) trainM oosM h1 hve
      ((matIdx (tsMaxFold x xs) + 2 - matIdx (addMonths trainM (tsMinFold x xs))).toNat + 1)
      (addMonths trainM (tsMinFold x xs)) hvs0 (by omega)
    rcases Option.isSome_iff_exists.mp htot with ⟨l, hl⟩
    exact ⟨l, tsMinFold x xs, tsMaxFold x xs,
      (matIdx (tsMaxFold x xs) + 2 - matIdx (addMonths trainM (tsMinFold x xs))).toNat + 1,
      hsmin, hemax, hl⟩

/-- C10 amended-claim witness: concrete 17-month index, `oos_months = 3`. -/
theorem C10_terminates_witness :
    (1 : Int) ≤ 3 ∧
    ([(⟨2020, 1, 1, 0⟩ : Ts), ⟨2021, 6, 1, 0⟩] ≠ []) ∧
    (∀ t ∈ [(⟨2020, 1, 1, 0⟩ : Ts), ⟨2021, 6, 1, 0⟩], Valid t) ∧
    wfaTerminates [(⟨2020, 1, 1, 0⟩ : Ts), ⟨2021, 6, 1, 0⟩] 12 3 :=
  ⟨by decide, by decide, by decide,
   C10_terminates_for_positive_oos _ 12 3 (by decide) (by decide) (by decide)⟩

theorem keyVals_base_mem (cfg : BasinConfig) (k : String) (v0 : PVal) :
    v0 ∈ keyVals cfg k v0 := by
  unfold keyVals
  cases cfg.discrete_values.lookup k with
  | some ds => exact List.mem_dedup.mpr (List.mem_cons_self v0 ds)
  | none =>
    cases v0 with
    | i n => exact List.mem_dedup.mpr (List.mem_cons_self _ _)
    | f q => exact List.mem_dedup.mpr (List.mem_cons_self _ _)
    | b v => exact List.mem_cons_self _ _
    | s v => exact List.mem_cons_self _ _

theorem base_mem_listProduct (cfg : BasinConfig) (base : List (String × PVal)) :
    base ∈ listProduct (base.map (fun kv => (kv.1, keyVals cfg kv.1 kv.2))) := by
  induction base with
  | nil => simp [listProduct]
  | cons kv rest ih =>
    obtain ⟨k, v⟩ := kv
    simp only [List.map_cons, listProduct, List.mem_flatMap, List.mem_map]
    exact ⟨v, keyVals_base_mem cfg k v, rest, ih, rfl⟩

/-! ### Claim C3 -/

/-- C3 counterexample: for `base = {entry_rsi: 100}` and the default
`BasinConfig`, the base point violates the `entry_rsi < 100` sanity
clamp, so the returned basin does not contain the base point — the
claim's "for every base ParameterSet and every BasinSpec" fails. -/
theorem C3_base_filtered_counterexample :
    ([("entry_rsi", PVal.i 100)] : List (String × PVal)) ∉
      make_basin_params [("entry_rsi", PVal.i 100)] defaultBasinConfig := by
  decide

/-- C3 amended: `basin(base, spec)` contains the exact base point
whenever the base point itself passes the sanity clamps (`entry_rsi`
strictly inside (0,100) and `stop_pct`/`take_pct` positive, where
present and convertible); a base violating them is dropped from its own
basin. -/
theorem C3_basin_contains_base (base : List (String × PVal)) (cfg : BasinConfig)
    (hsan : sanityOk base = true) :
    base ∈ make_basin_params base cfg := by
  unfold make_basin_params
  exact List.mem_dedup.mpr
    (List.mem_filter.mpr ⟨base_mem_listProduct cfg base, hsan⟩)

/-- C3 amended-claim witness: a realistic RSI2 base point. -/
theorem C3_basin_contains_base_witness :
    sanityOk [("entry_rsi", PVal.i 15), ("stop_pct", PVal.f (mkRat 6 1000)),
      ("max_bars_hold", PVal.i 8)] = true ∧
    ([("entry_rsi", PVal.i 15), ("stop_pct", PVal.f (mkRat 6 1000)),
      ("max_bars_hold", PVal.i 8)] : List (String × PVal)) ∈
      make_basin_params [("entry_rsi", PVal.i 15), ("stop_pct", PVal.f (mkRat 6 1000)),
        ("max_bars_hold", PVal.i 8)] defaultBasinConfig :=
  ⟨by decide,
   C3_basin_contains_base [("entry_rsi", PVal.i 15), ("stop_pct", PVal.f (mkRat 6 1000)),
     ("max_bars_hold", PVal.i 8)] defaultBasinConfig (by decide)⟩

theorem tradesSeg_tags (s : Summary) (cfg : GateConfig) :
    ∀ x ∈ tradesSeg s cfg,
      x = Reason.missing_trades ∨ x = Reason.trades_annualized_below := by
  intro x hx
  simp only [tradesSeg] at hx
  split at hx
  · simp at hx; exact Or.inl hx
  · split at hx
    · simp at hx; exact Or.inr hx
    · split at hx <;> simp_all

theorem maxddSeg_tags (s : Summary) (cfg : GateConfig) :
    ∀ l, maxddSeg s cfg = some l →
      ∀ x ∈ l, x = Reason.missing_maxdd_intrabar ∨ x = Reason.maxdd_intrabar_exceeds := by
  intro l hl
  simp only [maxddSeg] at hl
  split at hl
  · injection hl with h2; subst h2; simp
  · split at hl
    · cases hl
    · split at hl <;> (injection hl with h2; subst h2; simp)

theorem holdSeg_tags (s : Summary) (cfg : GateConfig) :
    ∀ l, holdSeg s cfg = some l → ∀ x ∈ l, x = Reason.avg_hold_bars_below := by
  intro l hl
  simp only [holdSeg] at hl
  split at hl
  · injection hl with h2; subst h2; simp
  · split at hl
    · injection hl with h2; subst h2; simp
    · split at hl
      · cases hl
      · split at hl <;> (injection hl with h2; subst h2; simp)

theorem maxTrSeg_tags (s : Summary) (cfg : GateConfig) :
    ∀ l, maxTrSeg s cfg = some l → ∀ x ∈ l, x = Reason.trades_annualized_above := by
  intro l hl
  simp only [maxTrSeg] at hl
  split at hl
  · injection hl with h2; subst h2; simp
  · split at hl
    · injection hl with h2; subst h2; simp
    · split at hl
      · cases hl
      · split at hl <;> (injection hl with h2; subst h2; simp)

theorem netSeg_tags (s : Summary) (cfg : GateConfig) :
    ∀ l, netSeg s cfg = some l → ∀ x ∈ l, x = Reason.net_pnl_nonpositive := by
  intro l hl
  simp only [netSeg] at hl
  split at hl
  · split at hl
    · injection hl with h2; subst h2; simp
    · split at hl
      · cases hl
      · split at hl <;> (injection hl with h2; subst h2; simp)
  · injection hl with h2; subst h2; simp

/-! ### Claim C4 -/

/-- C4: the gate checks are independent and non-short-circuiting — a
summary whose max drawdown exceeds the threshold and whose net pnl is
nonpositive (with `require_net_positive` on) is rejected with *both*
failure tags in the reasons list, regardless of what the checks between
them contribute. -/
theorem C4_gates_report_all_failures (s : Summary) (cfg : GateConfig)
    (r : GateResult) (m : ℚ)
    (hmd : s.max_drawdown_intrabar_pct = some (.num m))
    (hm : cfg.maxdd_intrabar_pct < m)
    (hreq : cfg.require_net_positive = true)
    (p : ℚ) (hnp : s.net_pnl = some (.num p)) (hp : p ≤ 0)
    (hr : apply_gates s cfg = some r) :
    r.gate_ok = false ∧ Reason.maxdd_intrabar_exceeds ∈ r.gate_reasons ∧
      Reason.net_pnl_nonpositive ∈ r.gate_reasons := by
  have h1 : maxddSeg s cfg = some [Reason.maxdd_intrabar_exceeds] := by
    simp [maxddSeg, hmd, svalFloat, hm]
  have h5 : netSeg s cfg = some [Reason.net_pnl_nonpositive] := by
    simp [netSeg, hreq, hnp, svalFloat, hp]
  cases h3 : holdSeg s cfg with
  | none => simp [apply_gates, h3] at hr
  | some r3 =>
    cases h4 : maxTrSeg s cfg with
    | none => simp [apply_gates, h1, h3, h4] at hr
    | some r4 =>
      simp only [apply_gates, h1, h3, h4, h5] at hr
      injection hr with h2
      subst h2
      refine ⟨rfl, ?_, ?_⟩ <;> simp

/-- C4 witness: maxdd 12 > 10 and net pnl -50 ≤ 0 with the positivity
gate on; both tags are reported. -/
theorem C4_gates_report_all_failures_witness :
    (Summary.mk (some (.num (mkRat 12 1))) (some (.num (mkRat 500 1)))
        (some (.num (mkRat (-50) 1))) none none (some (.num (mkRat 500 1)))
        none).max_drawdown_intrabar_pct = some (.num (mkRat 12 1)) ∧
    (GateConfig.mk (mkRat 10 1) (mkRat 200 1) none none
        true).maxdd_intrabar_pct < mkRat 12 1 ∧
    (GateConfig.mk (mkRat 10 1) (mkRat 200 1) none none
        true).require_net_positive = true ∧
    (Summary.mk (some (.num (mkRat 12 1))) (some (.num (mkRat 500 1)))
        (some (.num (mkRat (-50) 1))) none none (some (.num (mkRat 500 1)))
        none).net_pnl = some (.num (mkRat (-50) 1)) ∧
    mkRat (-50) 1 ≤ 0 ∧
    apply_gates
        (Summary.mk (some (.num (mkRat 12 1))) (some (.num (mkRat 500 1)))
          (some (.num (mkRat (-50) 1))) none none (some (.num (mkRat 500 1)))
          none)
        (GateConfig.mk (mkRat 10 1) (mkRat 200 1) none none true) =
      some ⟨false,
        [Reason.maxdd_intrabar_exceeds, Reason.net_pnl_nonpositive],
        GateConfig.mk (mkRat 10 1) (mkRat 200 1) none none true⟩ ∧
    (false = false ∧
      Reason.maxdd_intrabar_exceeds ∈
        [Reason.maxdd_intrabar_exceeds, Reason.net_pnl_nonpositive] ∧
      Reason.net_pnl_nonpositive ∈
        [Reason.maxdd_intrabar_exceeds, Reason.net_pnl_nonpositive]) :=
  ⟨rfl, by decide, rfl, rfl, by decide, by decide,
   C4_gates_report_all_failures
     (Summary.mk (some (.num (mkRat 12 1))) (some (.num (mkRat 500 1)))
       (some (.num (mkRat (-50) 1))) none none (some (.num (mkRat 500 1))) none)
     (GateConfig.mk (mkRat 10 1) (mkRat 200 1) none none true)
     ⟨false, [Reason.maxdd_intrabar_exceeds, Reason.net_pnl_nonpositive],
       GateConfig.mk (mkRat 10 1) (mkRat 200 1) none none true⟩
     (mkRat 12 1) rfl (by decide) rfl
     (mkRat (-50) 1) rfl (by decide) (by decide)⟩

/-! ### Claim C5 -/

/-- C5 amended: with `trades_annualized` absent and a numeric
`total_trades`, the gate derives the annualized count as
`total_trades * 365.25 / max(days_covered, 1)` (365.25 = 1461/4) from
the summary's own min/max timestamps *when both are present*, and the
trade-count tag is reported exactly when that value is below
`cfg.min_trades_annualized`; when the timestamps are absent the raw
trade count stands in for the annualized value (instead of the check
failing as undeterminable).  The tag appears in the `apply_gates`
reasons exactly when this segment produces it. -/
theorem C5_trades_annualization (s : Summary) (cfg : GateConfig)
    (habs : s.trades_annualized = none) (q : ℚ)
    (htr : s.total_trades = some (.num q)) :
    (∀ t0 t1 : ℚ, s.data_dt_min_utc = some (.num t0) →
      s.data_dt_max_utc = some (.num t1) →
      (mkRat (Int.tdiv q.num (q.den : Int)) 1 *
          (mkRat 1461 4 / max ((t1 - t0) / 86400) 1) =
        mkRat (Int.tdiv q.num (q.den : Int)) 1 *
          mkRat 1461 4 / max ((t1 - t0) / 86400) 1) ∧
      (Reason.trades_annualized_below ∈ tradesSeg s cfg ↔
        mkRat (Int.tdiv q.num (q.den : Int)) 1 *
          (mkRat 1461 4 / max ((t1 - t0) / 86400) 1) <
          cfg.min_trades_annualized)) ∧
    (s.data_dt_min_utc = none → s.data_dt_max_utc = none →
      (Reason.trades_annualized_below ∈ tradesSeg s cfg ↔
        mkRat (Int.tdiv q.num (q.den : Int)) 1 < cfg.min_trades_annualized)) ∧
    (∀ r, apply_gates s cfg = some r →
      (Reason.trades_annualized_below ∈ r.gate_reasons ↔
        Reason.trades_annualized_below ∈ tradesSeg s cfg)) := by
  refine ⟨?_, ?_, ?_⟩
  · intro t0 t1 h0 h1
    refine ⟨(mul_div_assoc _ _ _).symm, ?_⟩
    simp only [tradesSeg, htr, habs, h0, h1, svalInt, svalTime]
    split_ifs with hlt
    · exact iff_of_true (List.mem_singleton.mpr rfl) hlt
    · exact iff_of_false (by simp) hlt
  · intro h0 h1
    simp only [tradesSeg, htr, habs, h0, h1, svalInt]
    split_ifs with hlt
    · exact iff_of_true (List.mem_singleton.mpr rfl) hlt
    · exact iff_of_false (by simp) hlt
  · intro r hr
    cases h1 : maxddSeg s cfg with
    | none => simp [apply_gates, h1] at hr
    | some r1 =>
      cases h3 : holdSeg s cfg with
      | none => simp [apply_gates, h1, h3] at hr
      | some r3 =>
        cases h4 : maxTrSeg s cfg with
        | none => simp [apply_gates, h1, h3, h4] at hr
        | some r4 =>
          cases h5 : netSeg s cfg with
          | none => simp [apply_gates, h1, h3, h4, h5] at hr
          | some r5 =>
            simp only [apply_gates, h1, h3, h4, h5] at hr
            injection hr with h2
            subst h2
            simp only [List.mem_append]
            constructor
            · rintro ((((hx | hx) | hx) | hx) | hx)
              · rcases maxddSeg_tags s cfg r1 h1 _ hx with h | h <;> cases h
              · exact hx
              · cases holdSeg_tags s cfg r3 h3 _ hx
              · cases maxTrSeg_tags s cfg r4 h4 _ hx
              · cases netSeg_tags s cfg r5 h5 _ hx
            · intro hx
              exact Or.inl (Or.inl (Or.inl (Or.inr hx)))

/-- C5 amended-claim witness: trades=100 over a 73.05-day coverage gives
500 annualized (≥ 200, so no failure tag); the timestamp-absent clause
and the transport to `apply_gates` are exercised at the same input shape. -/
theorem C5_trades_annualization_witness :
    (Summary.mk none (some (.num (mkRat 100 1))) none
        (some (.num (mkRat 0 1))) (some (.num (mkRat 6311520 1))) none
        none).trades_annualized = none ∧
    (Summary.mk none (some (.num (mkRat 100 1))) none
        (some (.num (mkRat 0 1))) (some (.num (mkRat 6311520 1))) none
        none).total_trades = some (.num (mkRat 100 1)) ∧
    ((∀ t0 t1 : ℚ,
      (Summary.mk none (some (.num (mkRat 100 1))) none
        (some (.num (mkRat 0 1))) (some (.num (mkRat 6311520 1))) none
        none).data_dt_min_utc = some (.num t0) →
      (Summary.mk none (some (.num (mkRat 100 1))) none
        (some (.num (mkRat 0 1))) (some (.num (mkRat 6311520 1))) none
        none).data_dt_max_utc = some (.num t1) →
      (mkRat (Int.tdiv (mkRat 100 1).num ((mkRat 100 1).den : Int)) 1 *
          (mkRat 1461 4 / max ((t1 - t0) / 86400) 1) =
        mkRat (Int.tdiv (mkRat 100 1).num ((mkRat 100 1).den : Int)) 1 *
          mkRat 1461 4 / max ((t1 - t0) / 86400) 1) ∧
      (Reason.trades_annualized_below ∈ tradesSeg
          (Summary.mk none (some (.num (mkRat 100 1))) none
            (some (.num (mkRat 0 1))) (some (.num (mkRat 6311520 1))) none
            none)
          (GateConfig.mk (mkRat 10 1) (mkRat 200 1) none none false) ↔
        mkRat (Int.tdiv (mkRat 100 1).num ((mkRat 100 1).den : Int)) 1 *
          (mkRat 1461 4 / max ((t1 - t0) / 86400) 1) <
          (GateConfig.mk (mkRat 10 1) (mkRat 200 1) none none
            false).min_trades_annualized)) ∧
    ((Summary.mk none (some (.num (mkRat 100 1))) none
        (some (.num (mkRat 0 1))) (some (.num (mkRat 6311520 1))) none
        none).data_dt_min_utc = none →
      (Summary.mk none (some (.num (mkRat 100 1))) none
        (some (.num (mkRat 0 1))) (some (.num (mkRat 6311520 1))) none
        none).data_dt_max_utc = none →
      (Reason.trades_annualized_below ∈ tradesSeg
          (Summary.mk none (some (.num (mkRat 100 1))) none
            (some (.num (mkRat 0 1))) (some (.num (mkRat 6311520 1))) none
            none)
          (GateConfig.mk (mkRat 10 1) (mkRat 200 1) none none false) ↔
        mkRat (Int.tdiv (mkRat 100 1).num ((mkRat 100 1).den : Int)) 1 <
          (GateConfig.mk (mkRat 10 1) (mkRat 200 1) none none
            false).min_trades_annualized)) ∧
    (∀ r, apply_gates
        (Summary.mk none (some (.num (mkRat 100 1))) none
          (some (.num (mkRat 0 1))) (some (.num (mkRat 6311520 1))) none
          none)
        (GateConfig.mk (mkRat 10 1) (mkRat 200 1) none none false) = some r →
      (Reason.trades_annualized_below ∈ r.gate_reasons ↔
        Reason.trades_annualized_below ∈ tradesSeg
          (Summary.mk none (some (.num (mkRat 100 1))) none
            (some (.num (mkRat 0 1))) (some (.num (mkRat 6311520 1))) none
            none)
          (GateConfig.mk (mkRat 10 1) (mkRat 200 1) none none false)))) :=
  ⟨rfl, rfl,
   C5_trades_annualization _ _ rfl (mkRat 100 1) rfl⟩

/-- C5 counterexample: `trades_annualized` absent *and* both coverage
timestamps absent, yet the check passes using the raw trade count
(300 ≥ 200): per the claim the annualized value "cannot be determined"
from the summary's own min/max timestamps, so the check should fail —
the code instead substitutes the raw count and passes. -/
theorem C5_raw_count_counterexample :
    (Summary.mk none (some (.num (mkRat 300 1))) none none none none
      none).trades_annualized = none ∧
    (Summary.mk none (some (.num (mkRat 300 1))) none none none none
      none).data_dt_min_utc = none ∧
    apply_gates
        (Summary.mk none (some (.num (mkRat 300 1))) none none none none none)
        (GateConfig.mk (mkRat 10 1) (mkRat 200 1) none none false) =
      some ⟨false, [Reason.missing_maxdd_intrabar],
        GateConfig.mk (mkRat 10 1) (mkRat 200 1) none none false⟩ ∧
    Reason.trades_annualized_below ∉ [Reason.missing_maxdd_intrabar] := by
  refine ⟨rfl, rfl, by decide, by decide⟩

theorem RankLe_refl (a : CandRow) : RankLe a a :=
  Or.inr ⟨rfl, Or.inr ⟨rfl, le_refl _⟩⟩

/-! ### Claim C6 -/

/-- C6: on every nonempty candidate list the selector produces a
selection; `used_fallback` is set exactly when no candidate reaches the
minimum pass rate, in which case the selection is made from the full
unfiltered list; and the selected row ranks at least as high as every
row of its pool under the (median desc, worst desc, mean desc)
lexicographic order — it is the first row of that sort. -/
theorem C6_selector_total_and_maximal (rows : List CandRow) (minRate : ℚ)
    (hne : rows ≠ []) :
    ∃ r fb, selectFrozen rows minRate = some (r, fb) ∧
      (fb = true ↔ rows.filter (passes minRate) = []) ∧
      (rows.filter (passes minRate) = [] →
        r ∈ rows ∧ ∀ x ∈ rows, RankLe r x) ∧
      (rows.filter (passes minRate) ≠ [] →
        r ∈ rows.filter (passes minRate) ∧
        ∀ x ∈ rows.filter (passes minRate), RankLe r x) := by
  cases rows with
  | nil => exact absurd rfl hne
  | cons a as =>
    by_cases hel : ((a :: as).filter (passes minRate)).isEmpty
    · -- fallback branch: pool is the full list
      have hpne : (a :: as).insertionSort RankLe ≠ [] := by
        intro hnil
        have := List.perm_insertionSort RankLe (a :: as)
        rw [hnil] at this
        exact List.cons_ne_nil a as this.symm.eq_nil
      cases hsort : (a :: as).insertionSort RankLe with
      | nil => exact absurd hsort hpne
      | cons r rest =>
        have hperm := List.perm_insertionSort RankLe (a :: as)
        rw [hsort] at hperm
        have hsorted := List.sorted_insertionSort RankLe (a :: as)
        rw [hsort] at hsorted
        refine ⟨r, true, ?_, ?_, ?_, ?_⟩
        · simp only [selectFrozen, hel, if_pos, hsort]
          simp [List.isEmpty_iff.mp hel]
        · simp [List.isEmpty_iff.mp hel]
        · intro _
          refine ⟨hperm.mem_iff.mp (List.mem_cons_self r rest), ?_⟩
          intro x hx
          rcases List.mem_cons.mp (hperm.mem_iff.mpr hx) with h | h
          · exact h ▸ RankLe_refl r
          · exact List.rel_of_sorted_cons hsorted x h
        · intro hcon
          exact absurd (List.isEmpty_iff.mp hel) hcon
    · -- filter nonempty: pool is the filtered list
      have hfne : (a :: as).filter (passes minRate) ≠ [] := by
        intro hnil
        rw [hnil] at hel
        exact hel rfl
      have hpne : ((a :: as).filter (passes minRate)).insertionSort RankLe ≠ [] := by
        intro hnil
        have := List.perm_insertionSort RankLe ((a :: as).filter (passes minRate))
        rw [hnil] at this
        exact hfne this.symm.eq_nil
      cases hsort : ((a :: as).filter (passes minRate)).insertionSort RankLe with
      | nil => exact absurd hsort hpne
      | cons r rest =>
        have hperm := List.perm_insertionSort RankLe ((a :: as).filter (passes minRate))
        rw [hsort] at hperm
        have hsorted := List.sorted_insertionSort RankLe ((a :: as).filter (passes minRate))
        rw [hsort] at hsorted
        refine ⟨r, false, ?_, ?_, ?_, ?_⟩
        · simp only [selectFrozen]
          rw [if_neg hel, hsort]
          simp [hel]
        · simp [hfne]
        · intro hcon
          exact absurd hcon hfne
        · intro _
          refine ⟨hperm.mem_iff.mp (List.mem_cons_self r rest), ?_⟩
          intro x hx
          rcases List.mem_cons.mp (hperm.mem_iff.mpr hx) with h | h
          · exact h ▸ RankLe_refl r
          · exact List.rel_of_sorted_cons hsorted x h

/-- C6 witness: two candidates, one above the pass-rate bar. -/
theorem C6_selector_total_and_maximal_witness :
    ([CandRow.mk 0 (some (mkRat 1 2)) (mkRat 1 1) (mkRat 0 1) (mkRat 1 1),
      CandRow.mk 1 (some (mkRat 9 10)) (mkRat 2 1) (mkRat 1 1) (mkRat 2 1)] ≠
      ([] : List CandRow)) ∧
    ∃ r fb, selectFrozen
        [CandRow.mk 0 (some (mkRat 1 2)) (mkRat 1 1) (mkRat 0 1) (mkRat 1 1),
         CandRow.mk 1 (some (mkRat 9 10)) (mkRat 2 1) (mkRat 1 1) (mkRat 2 1)]
        (mkRat 7 10) = some (r, fb) ∧
      (fb = true ↔
        [CandRow.mk 0 (some (mkRat 1 2)) (mkRat 1 1) (mkRat 0 1) (mkRat 1 1),
         CandRow.mk 1 (some (mkRat 9 10)) (mkRat 2 1) (mkRat 1 1)
           (mkRat 2 1)].filter (passes (mkRat 7 10)) = []) ∧
      ([CandRow.mk 0 (some (mkRat 1 2)) (mkRat 1 1) (mkRat 0 1) (mkRat 1 1),
        CandRow.mk 1 (some (mkRat 9 10)) (mkRat 2 1) (mkRat 1 1)
          (mkRat 2 1)].filter (passes (mkRat 7 10)) = [] →
        r ∈ [CandRow.mk 0 (some (mkRat 1 2)) (mkRat 1 1) (mkRat 0 1) (mkRat 1 1),
             CandRow.mk 1 (some (mkRat 9 10)) (mkRat 2 1) (mkRat 1 1) (mkRat 2 1)] ∧
        ∀ x ∈ [CandRow.mk 0 (some (mkRat 1 2)) (mkRat 1 1) (mkRat 0 1) (mkRat 1 1),
               CandRow.mk 1 (some (mkRat 9 10)) (mkRat 2 1) (mkRat 1 1) (mkRat 2 1)],
          RankLe r x) ∧
      ([CandRow.mk 0 (some (mkRat 1 2)) (mkRat 1 1) (mkRat 0 1) (mkRat 1 1),
        CandRow.mk 1 (some (mkRat 9 10)) (mkRat 2 1) (mkRat 1 1)
          (mkRat 2 1)].filter (passes (mkRat 7 10)) ≠ [] →
        r ∈ [CandRow.mk 0 (some (mkRat 1 2)) (mkRat 1 1) (mkRat 0 1) (mkRat 1 1),
             CandRow.mk 1 (some (mkRat 9 10)) (mkRat 2 1) (mkRat 1 1)
               (mkRat 2 1)].filter (passes (mkRat 7 10)) ∧
        ∀ x ∈ [CandRow.mk 0 (some (mkRat 1 2)) (mkRat 1 1) (mkRat 0 1) (mkRat 1 1),
               CandRow.mk 1 (some (mkRat 9 10)) (mkRat 2 1) (mkRat 1 1)
                 (mkRat 2 1)].filter (passes (mkRat 7 10)),
          RankLe r x) :=
  ⟨by decide,
   C6_selector_total_and_maximal
     [CandRow.mk 0 (some (mkRat 1 2)) (mkRat 1 1) (mkRat 0 1) (mkRat 1 1),
      CandRow.mk 1 (some (mkRat 9 10)) (mkRat 2 1) (mkRat 1 1) (mkRat 2 1)]
     (mkRat 7 10) (by decide)⟩

theorem mem_sortDedup {x : String} {l : List String} :
    x ∈ sortDedup l ↔ x ∈ l := by
  unfold sortDedup
  rw [(List.perm_insertionSort _ _).mem_iff]
  exact List.mem_dedup

/-! ### Claim C7 -/

/-- C7 counterexample: with the drawdown-length input missing the risk
sub-score gets the *neutral* length contribution 0.3·0.5 = 0.15, whereas
a drawdown length at the worst end of the scale (5000) scores 0 — so a
missing `max_drawdown_close_len` does not default to the worst end of
the scale as the claim states. -/
theorem C7_neutral_ddl_counterexample :
    (scorecard_v1 none none none none none none defaultScoreWeights).sub_risk =
      3 / 20 ∧
    (scorecard_v1 none none none none none
        (some (SummaryS.mk none none none none none none
          (some (.num 5000)) false)) defaultScoreWeights).sub_risk = 0 ∧
    (3 / 20 : ℚ) ≠ 0 := by
  refine ⟨?_, ?_, by norm_num⟩
  · simp only [scorecard_v1, ddLookup, ddlLookup, safeFloat, linmap, clip01]
    norm_num
  · simp only [scorecard_v1, ddLookup, ddlLookup, safeFloat, svalFloat,
      linmap, clip01]
    norm_num

/-- C7 amended: every missing positive-good input (`pos_window_rate`,
`basin_pass_rate`, `profit_factor`, `expectancy`, `sharpe`,
`net_return_pct`) defaults to 0; a missing max drawdown defaults to 100,
the worst end of its scale; a missing drawdown *length* contributes the
neutral 0.5 (not the worst end); absent strategy params halve
implementability; and every missing input is recorded in the missing
set.  The computation is a total function (it never raises). -/
theorem C7_missing_inputs_conservative (ws : Option WfaSummaryS)
    (wg : Option WfaGateReportS) (br : Option BasinReportS)
    (bwr : Option BasinWfaReportS) (vs ts : Option SummaryS)
    (w : ScoreWeights) :
    (posRateLookup ws wg = none →
      (scorecard_v1 ws wg br bwr vs ts w).in_pos_window_rate = 0 ∧
      "wfa_pos_window_rate" ∈ (scorecard_v1 ws wg br bwr vs ts w).missing) ∧
    (basinLookup bwr br = none →
      (scorecard_v1 ws wg br bwr vs ts w).in_basin_pass_rate = 0 ∧
      "basin_pass_rate" ∈ (scorecard_v1 ws wg br bwr vs ts w).missing) ∧
    (ddLookup vs ts = none →
      (scorecard_v1 ws wg br bwr vs ts w).in_max_drawdown_intrabar_pct = 100 ∧
      "max_drawdown_intrabar_pct" ∈ (scorecard_v1 ws wg br bwr vs ts w).missing) ∧
    (ddlLookup vs ts = none →
      (scorecard_v1 ws wg br bwr vs ts w).sub_risk =
        0.7 * (1 - linmap ((ddLookup vs ts).getD 100) 5 20) + 0.3 * 0.5 ∧
      "max_drawdown_close_len" ∈ (scorecard_v1 ws wg br bwr vs ts w).missing) ∧
    (pfLookup vs ts = none →
      (scorecard_v1 ws wg br bwr vs ts w).in_profit_factor = 0 ∧
      "profit_factor" ∈ (scorecard_v1 ws wg br bwr vs ts w).missing) ∧
    (expLookup vs ts = none →
      (scorecard_v1 ws wg br bwr vs ts w).in_expectancy = 0 ∧
      "expectancy" ∈ (scorecard_v1 ws wg br bwr vs ts w).missing) ∧
    (sharpeLookup vs ts = none →
      (scorecard_v1 ws wg br bwr vs ts w).in_sharpe = 0 ∧
      "sharpe" ∈ (scorecard_v1 ws wg br bwr vs ts w).missing) ∧
    (netrLookup vs ts = none →
      (scorecard_v1 ws wg br bwr vs ts w).in_net_return_pct = 0 ∧
      "net_return_pct" ∈ (scorecard_v1 ws wg br bwr vs ts w).missing) ∧
    (stratTruthy vs ts = false →
      (scorecard_v1 ws wg br bwr vs ts w).sub_implementability = 0.5 ∧
      "strategy_params" ∈ (scorecard_v1 ws wg br bwr vs ts w).missing) := by
  refine ⟨fun h => ⟨?_, ?_⟩, fun h => ⟨?_, ?_⟩, fun h => ⟨?_, ?_⟩,
    fun h => ⟨?_, ?_⟩, fun h => ⟨?_, ?_⟩, fun h => ⟨?_, ?_⟩,
    fun h => ⟨?_, ?_⟩, fun h => ⟨?_, ?_⟩, fun h => ⟨?_, ?_⟩⟩ <;>
    simp [scorecard_v1, mem_sortDedup, h]

/-- C7 amended-claim witness: all inputs absent; every implication of
the amended claim is discharged at this input. -/
theorem C7_missing_inputs_conservative_witness :
    ((scorecard_v1 none none none none none none
        defaultScoreWeights).in_pos_window_rate = 0 ∧
      "wfa_pos_window_rate" ∈ (scorecard_v1 none none none none none none
        defaultScoreWeights).missing) ∧
    ((scorecard_v1 none none none none none none
        defaultScoreWeights).in_basin_pass_rate = 0 ∧
      "basin_pass_rate" ∈ (scorecard_v1 none none none none none none
        defaultScoreWeights).missing) ∧
    ((scorecard_v1 none none none none none none
        defaultScoreWeights).in_max_drawdown_intrabar_pct = 100 ∧
      "max_drawdown_intrabar_pct" ∈ (scorecard_v1 none none none none none none
        defaultScoreWeights).missing) ∧
    ((scorecard_v1 none none none none none none
        defaultScoreWeights).sub_risk =
        0.7 * (1 - linmap ((ddLookup none none).getD 100) 5 20) + 0.3 * 0.5 ∧
      "max_drawdown_close_len" ∈ (scorecard_v1 none none none none none none
        defaultScoreWeights).missing) ∧
    ((scorecard_v1 none none none none none none
        defaultScoreWeights).in_profit_factor = 0 ∧
      "profit_factor" ∈ (scorecard_v1 none none none none none none
        defaultScoreWeights).missing) ∧
    ((scorecard_v1 none none none none none none
        defaultScoreWeights).in_expectancy = 0 ∧
      "expectancy" ∈ (scorecard_v1 none none none none none none
        defaultScoreWeights).missing) ∧
    ((scorecard_v1 none none none none none none
        defaultScoreWeights).in_sharpe = 0 ∧
      "sharpe" ∈ (scorecard_v1 none none none none none none
        defaultScoreWeights).missing) ∧
    ((scorecard_v1 none none none none none none
        defaultScoreWeights).in_net_return_pct = 0 ∧
      "net_return_pct" ∈ (scorecard_v1 none none none none none none
        defaultScoreWeights).missing) ∧
    ((scorecard_v1 none none none none none none
        defaultScoreWeights).sub_implementability = 0.5 ∧
      "strategy_params" ∈ (scorecard_v1 none none none none none none
        defaultScoreWeights).missing) := by
  have h := C7_missing_inputs_conservative none none none none none none
    defaultScoreWeights
  exact ⟨h.1 rfl, h.2.1 rfl, h.2.2.1 rfl, h.2.2.2.1 rfl, h.2.2.2.2.1 rfl,
    h.2.2.2.2.2.1 rfl, h.2.2.2.2.2.2.1 rfl, h.2.2.2.2.2.2.2.1 rfl,
    h.2.2.2.2.2.2.2.2 rfl⟩

theorem gauss_cont : Continuous fun t : ℝ => Real.exp (-t ^ 2) :=
  Real.continuous_exp.comp (continuous_pow 2).neg

theorem gaussInt_strictMono : StrictMono gaussInt := by
  intro a b hab
  have h1 := intervalIntegral.integral_add_adjacent_intervals
    (gauss_cont.intervalIntegrable (μ := MeasureTheory.volume) 0 a)
    (gauss_cont.intervalIntegrable (μ := MeasureTheory.volume) a b)
  have h2 : 0 < ∫ t in a..b, Real.exp (-t ^ 2) :=
    intervalIntegral.intervalIntegral_pos_of_pos
      (gauss_cont.intervalIntegrable a b) (fun x => Real.exp_pos _) hab
  unfold gaussInt
  linarith

theorem gaussInt_nonpos {x : ℝ} (hx : x ≤ 0) : gaussInt x ≤ 0 := by
  unfold gaussInt
  rw [intervalIntegral.integral_symm]
  have h : 0 ≤ ∫ t in x..0, Real.exp (-t ^ 2) :=
    intervalIntegral.integral_nonneg hx (fun u _ => (Real.exp_pos _).le)
  linarith

theorem gaussInt_lt (x : ℝ) : gaussInt x < Real.sqrt Real.pi / 2 := by
  have hpi : (0 : ℝ) < Real.sqrt Real.pi / 2 := by
    have := Real.sqrt_pos.mpr Real.pi_pos
    linarith
  rcases le_or_lt x 0 with hx | hx
  · exact lt_of_le_of_lt (gaussInt_nonpos hx) hpi
  · have hgAll : MeasureTheory.Integrable fun t : ℝ => Real.exp (-t ^ 2) := by
      have h := integrable_exp_neg_mul_sq (b := 1) one_pos
      simpa using h
    have htot : ∫ t in Set.Ioi (0:ℝ), Real.exp (-t ^ 2) = Real.sqrt Real.pi / 2 := by
      have h := integral_gaussian_Ioi 1
      simpa using h
    have hunion : Set.Ioc 0 x ∪ Set.Ioi x = Set.Ioi (0:ℝ) :=
      Set.Ioc_union_Ioi_eq_Ioi hx.le
    have hsplit := MeasureTheory.setIntegral_union
      (s := Set.Ioc (0:ℝ) x) (t := Set.Ioi x)
      (f := fun t : ℝ => Real.exp (-t ^ 2)) (μ := MeasureTheory.volume)
      (Set.Ioc_disjoint_Ioi le_rfl) measurableSet_Ioi
      hgAll.integrableOn hgAll.integrableOn
    rw [hunion] at hsplit
    have hIoc : gaussInt x = ∫ t in Set.Ioc 0 x, Real.exp (-t ^ 2) := by
      unfold gaussInt
      exact intervalIntegral.integral_of_le hx.le
    have hpos2 : 0 < ∫ t in Set.Ioi x, Real.exp (-t ^ 2) := by
      have hu2 : Set.Ioc x (x+1) ∪ Set.Ioi (x+1) = Set.Ioi x :=
        Set.Ioc_union_Ioi_eq_Ioi (by linarith)
      have hsplit2 := MeasureTheory.setIntegral_union
        (s := Set.Ioc x (x+1)) (t := Set.Ioi (x+1))
        (f := fun t : ℝ => Real.exp (-t ^ 2)) (μ := MeasureTheory.volume)
        (Set.Ioc_disjoint_Ioi le_rfl) measurableSet_Ioi
        hgAll.integrableOn hgAll.integrableOn
      rw [hu2] at hsplit2
      have hmid : 0 < ∫ t in Set.Ioc x (x+1), Real.exp (-t ^ 2) := by
        rw [← intervalIntegral.integral_of_le (by linarith : x ≤ x + 1)]
        exact intervalIntegral.intervalIntegral_pos_of_pos
          (gauss_cont.intervalIntegrable _ _) (fun u => Real.exp_pos _)
          (by linarith)
      have htail : 0 ≤ ∫ t in Set.Ioi (x+1), Real.exp (-t ^ 2) :=
        MeasureTheory.setIntegral_nonneg measurableSet_Ioi
          (fun u _ => (Real.exp_pos _).le)
      linarith
    rw [hIoc]
    linarith

theorem gaussInt_neg (x : ℝ) : gaussInt (-x) = - gaussInt x := by
  have h := intervalIntegral.integral_comp_neg
    (a := 0) (b := -x) (f := fun t : ℝ => Real.exp (-t ^ 2))
  simp only [neg_sq, neg_neg, neg_zero] at h
  unfold gaussInt
  rw [h, intervalIntegral.integral_symm]

theorem gaussInt_gt (x : ℝ) : -(Real.sqrt Real.pi / 2) < gaussInt x := by
  have h := gaussInt_lt (-x)
  rw [gaussInt_neg] at h
  linarith

theorem erf_bounds (x : ℝ) : -1 < erf x ∧ erf x < 1 := by
  have hs : (0 : ℝ) < Real.sqrt Real.pi := Real.sqrt_pos.mpr Real.pi_pos
  have hc : (0 : ℝ) < 2 / Real.sqrt Real.pi := by positivity
  have hone : 2 / Real.sqrt Real.pi * (Real.sqrt Real.pi / 2) = 1 := by
    field_simp
  constructor
  · have := mul_lt_mul_of_pos_left (gaussInt_gt x) hc
    rw [mul_neg, hone] at this
    simpa [erf] using this
  · have := mul_lt_mul_of_pos_left (gaussInt_lt x) hc
    rw [hone] at this
    simpa [erf] using this

theorem erf_strictMono : StrictMono erf := by
  intro a b hab
  have hc : (0 : ℝ) < 2 / Real.sqrt Real.pi := by
    have := Real.sqrt_pos.mpr Real.pi_pos
    positivity
  exact mul_lt_mul_of_pos_left (gaussInt_strictMono hab) hc

theorem normCdf_strictMono : StrictMono normCdf := by
  intro a b hab
  have h2 : (0 : ℝ) < Real.sqrt 2 := Real.sqrt_pos.mpr (by norm_num)
  have := erf_strictMono (div_lt_div_of_pos_right hab h2)
  unfold normCdf
  linarith

theorem normCdf_bounds (z : ℝ) : 0 < normCdf z ∧ normCdf z < 1 := by
  obtain ⟨h1, h2⟩ := erf_bounds (z / Real.sqrt 2)
  unfold normCdf
  constructor <;> linarith

/-! ### Claim C8 -/

/-- C8: with fewer than two trials the deflated-confidence statistic is
the undefined value `none` — never a number, and (the function being
total) never an error. -/
theorem C8_undefined_below_two_trials (sharpe skew kurt sr_ref : ℝ)
    (n_trials : ℤ) (h : n_trials < 2) :
    deflated_sharpe_ratio sharpe n_trials skew kurt sr_ref = none :=
  if_pos h

/-- C8 witness: `n_trials = 1`. -/
theorem C8_undefined_below_two_trials_witness :
    (1 : ℤ) < 2 ∧ deflated_sharpe_ratio 1.5 1 0 3 0 = none :=
  ⟨by decide, C8_undefined_below_two_trials 1.5 0 3 0 1 (by decide)⟩

/-! ### Claim C9 -/

/-- C9: for a fixed observed Sharpe (and fixed skew, kurtosis and
reference threshold), the deflated confidence is strictly decreasing in
the trial count on `n ≥ 2`: both counts produce a defined value and the
larger count produces the strictly smaller confidence. -/
theorem C9_dsr_strictly_decreasing (s skew kurt sr_ref : ℝ) (n m : ℤ)
    (h2 : 2 ≤ n) (hnm : n < m) :
    deflated_sharpe_ratio s n skew kurt sr_ref =
      some (dsrVal s n skew kurt sr_ref) ∧
    deflated_sharpe_ratio s m skew kurt sr_ref =
      some (dsrVal s m skew kurt sr_ref) ∧
    dsrVal s m skew kurt sr_ref < dsrVal s n skew kurt sr_ref := by
  refine ⟨if_neg (by omega), if_neg (by omega), ?_⟩
  have hsd : (0 : ℝ) < Real.sqrt
      (max ((1 - skew * s + ((kurt - 1) / 4) * s ^ 2) / max ((252:ℝ) - 1) 1)
        1e-12) := by
    apply Real.sqrt_pos.mpr
    exact lt_of_lt_of_le (by norm_num) (le_max_right _ _)
  set sd : ℝ := Real.sqrt
    (max ((1 - skew * s + ((kurt - 1) / 4) * s ^ 2) / max ((252:ℝ) - 1) 1)
      1e-12) with hsddef
  have hcast : ((n : ℝ) < (m : ℝ)) := by exact_mod_cast hnm
  have hn2 : ((2 : ℝ) ≤ (n : ℝ)) := by exact_mod_cast h2
  have hemax : Real.sqrt (2 * Real.log (n : ℝ)) <
      Real.sqrt (2 * Real.log (m : ℝ)) := by
    apply Real.sqrt_lt_sqrt
    · have : (0 : ℝ) ≤ Real.log (n : ℝ) :=
        Real.log_nonneg (by linarith)
      linarith
    · have : Real.log (n : ℝ) < Real.log (m : ℝ) :=
        Real.log_lt_log (by linarith) hcast
      linarith
  have hz : (s - (sr_ref + Real.sqrt (2 * Real.log (m : ℝ)) * sd)) / sd <
      (s - (sr_ref + Real.sqrt (2 * Real.log (n : ℝ)) * sd)) / sd := by
    apply div_lt_div_of_pos_right ?_ hsd
    nlinarith
  have hmono := normCdf_strictMono hz
  obtain ⟨hm0, hm1⟩ := normCdf_bounds
    ((s - (sr_ref + Real.sqrt (2 * Real.log (m : ℝ)) * sd)) / sd)
  obtain ⟨hn0, hn1⟩ := normCdf_bounds
    ((s - (sr_ref + Real.sqrt (2 * Real.log (n : ℝ)) * sd)) / sd)
  show max 0 (min 1 (normCdf
      ((s - (sr_ref + Real.sqrt (2 * Real.log (m : ℝ)) * sd)) / sd))) <
    max 0 (min 1 (normCdf
      ((s - (sr_ref + Real.sqrt (2 * Real.log (n : ℝ)) * sd)) / sd)))
  rw [min_eq_right hm1.le, min_eq_right hn1.le,
    max_eq_right hm0.le, max_eq_right hn0.le]
  exact hmono

/-- C9 witness: Sharpe 0 with 2 vs 3 trials. -/
theorem C9_dsr_strictly_decreasing_witness :
    (2 : ℤ) ≤ 2 ∧ (2 : ℤ) < 3 ∧
    (deflated_sharpe_ratio 0 2 0 3 0 = some (dsrVal 0 2 0 3 0) ∧
     deflated_sharpe_ratio 0 3 0 3 0 = some (dsrVal 0 3 0 3 0) ∧
     dsrVal 0 3 0 3 0 < dsrVal 0 2 0 3 0) :=
  ⟨by decide, by decide,
   C9_dsr_strictly_decreasing 0 0 3 0 2 3 (by decide) (by decide)⟩

end QuantHarbor
